import Mathlib

/-!
# ns-3 congestion-control experiments: `tcp-bbr-replication.cc` and `tcp-reno-custom.cc`

A shallow embedding of the two experiment programs.  Machine integers are natural
numbers reduced modulo their width; simulated time and the `double` arithmetic of the
programs are taken over exact rationals (seconds); text written to a stream is the
list of the items inserted with `<<`.
-/

namespace Ns3Experiments

/-! ## Machine integers -/

/-- Number of values of a `uint16_t`. -/
def UINT16_MOD : Nat := 2 ^ 16

/-- Number of values of a `uint32_t`. -/
def UINT32_MOD : Nat := 2 ^ 32

/-- Number of values of a `uint64_t`. -/
def UINT64_MOD : Nat := 2 ^ 64

/-- Subtraction of two `uint32_t` values: the result wraps modulo `2^32`. -/
def sub32 (a b : Nat) : Nat := (a % UINT32_MOD + UINT32_MOD - b % UINT32_MOD) % UINT32_MOD

/-! ## Flow statistics (`FlowMonitor::FlowStats`) -/

/-- The counters of `FlowMonitor::FlowStats` the programs read: byte counters are
`uint64_t`, packet counters are `uint32_t`. -/
structure FlowStats where
  txBytes : Nat
  rxBytes : Nat
  txPackets : Nat
  rxPackets : Nat
  lostPackets : Nat
  deriving Repr, DecidableEq

/-- Every counter fits its machine type. -/
def FlowStats.InRange (s : FlowStats) : Prop :=
  s.txBytes < UINT64_MOD ∧ s.rxBytes < UINT64_MOD ∧
    s.txPackets < UINT32_MOD ∧ s.rxPackets < UINT32_MOD ∧ s.lostPackets < UINT32_MOD

instance (s : FlowStats) : Decidable s.InRange := by
  unfold FlowStats.InRange; infer_instance

/-- The value of `uint32_t retransmissions = txPackets - rxPackets - lostPackets;`
(tcp-bbr-replication.cc, line 355): two `uint32_t` subtractions, left to right. -/
def retransmissions (s : FlowStats) : Nat :=
  sub32 (sub32 s.txPackets s.rxPackets) s.lostPackets

/-- The value printed after `"  Throughput: "`:
`rxBytes * 8.0 / stopTime.GetSeconds() / 1024 / 1024`, over exact rationals;
`stopTime` is the stop time in seconds. -/
def throughputMbps (s : FlowStats) (stopTime : ℚ) : ℚ :=
  (s.rxBytes : ℚ) * 8 / stopTime / 1024 / 1024

/-- The throughput as the specification words it: `rx_bytes * 8 / elapsed_seconds`
bits per second, expressed in megabits per second (`10^6` bit/s). -/
def specThroughputMbps (s : FlowStats) (elapsedSeconds : ℚ) : ℚ :=
  (s.rxBytes : ℚ) * 8 / elapsedSeconds / 1000000

/-! ## Text written to output streams -/

/-- One item inserted into an output stream with `<<`. -/
inductive Tok where
  /-- A string literal or `std::string`. -/
  | str (s : String)
  /-- A `double`, here the exact rational it stands for. -/
  | dbl (v : ℚ)
  /-- An unsigned integer (`uint16_t` or `uint32_t`), printed in decimal. -/
  | uint (n : Nat)
  /-- A `TimeWithUnit`, as produced by `Time::As (Time::S)`; the time in seconds. -/
  | timeS (t : ℚ)
  /-- The manipulator `std::endl`. -/
  | endl
  deriving DecidableEq

/-- How the stream library prints the two kinds of item whose formatting is fixed
outside the programs: `double` values and `TimeWithUnit` values. -/
structure Fmt where
  dbl : ℚ → String
  timeS : ℚ → String

/-- The characters one inserted item contributes to the stream. -/
def Tok.render (f : Fmt) : Tok → String
  | .str s => s
  | .dbl v => f.dbl v
  | .uint n => toString n
  | .timeS t => f.timeS t
  | .endl => "\n"

/-- The characters a sequence of insertions contributes to the stream. -/
def renderToks (f : Fmt) (ts : List Tok) : String :=
  String.join (ts.map (Tok.render f))

/-! ## Trace callbacks -/

/-- What a queue discipline hands to its `Drop` trace: the dropped item, with the flow
its packet belongs to and its size. -/
structure QueueDiscItem where
  flowId : Nat
  size : Nat
  deriving Repr, DecidableEq

/-- The outcome of one call of `CheckQueueSize`: the delay after which the next call is
scheduled and the line written to `fPlotQueue`. -/
structure QueueSample where
  nextDelay : ℚ
  line : List Tok
  deriving DecidableEq

/-- `CheckQueueSize (queue)` called at simulated time `now` (seconds) when
`queue->GetCurrentSize ().GetValue ()` is `qSize`; identical in both programs. -/
def CheckQueueSize (now : ℚ) (qSize : Nat) : QueueSample :=
  { nextDelay := 1 / 1000
    line := [.dbl now, .str " ", .uint qSize, .endl] }

/-- Simulated time at which the call scheduled by `CheckQueueSize` at `now` fires:
`Simulator::Schedule (delay, ...)` fires at `Now () + delay`. -/
def nextCheckTime (now : ℚ) (qSize : Nat) : ℚ :=
  now + (CheckQueueSize now qSize).nextDelay

/-- The sampling period the comment in `CheckQueueSize` and the specification give:
1/100 of a second. -/
def specSamplingPeriod : ℚ := 1 / 100

/-- `DropAtQueue (stream, item)` called at simulated time `now`: the line written to
the drop trace; identical in both programs. -/
def DropAtQueue (now : ℚ) (_item : QueueDiscItem) : List Tok :=
  [.dbl now, .str " 1", .endl]

/-- The drop line as the specification words it: `(timestamp, flow_id)`. -/
def specDropLine (now : ℚ) (item : QueueDiscItem) : List Tok :=
  [.dbl now, .str " ", .uint item.flowId, .endl]

/-- `CwndChange (port, oldCwnd, newCwnd)` of tcp-reno-custom.cc called at simulated time
`now` with the global `segmentSize`: the line written to `fPlotCwnd`.  The `uint32_t`
division has no defined result when `segmentSize` is 0. -/
def CwndChange (segmentSize : Nat) (now : ℚ) (port _oldCwnd newCwnd : Nat) :
    Option (List Tok) :=
  if segmentSize = 0 then none
  else some [.dbl now, .str " ", .uint (newCwnd / segmentSize), .str " ", .uint port, .endl]

/-- `SsthreshChange (port, oldSsthresh, newSsthresh)` of tcp-reno-custom.cc called at
simulated time `now`: the line written to `fPlotSsthresh`. -/
def SsthreshChange (segmentSize : Nat) (now : ℚ) (port _oldSsthresh newSsthresh : Nat) :
    Option (List Tok) :=
  if segmentSize = 0 then none
  else some [.dbl now, .str " ", .uint (newSsthresh / segmentSize), .str " ", .uint port,
    .endl]

/-! ## Traffic sources (`InstallBulkSend`, `InstallOnOff`) -/

/-- The application a helper installs, with the attributes the programs set on it. -/
inductive AppKind where
  /-- `BulkSendHelper` with `MaxBytes`. -/
  | bulkSend (maxBytes : Nat)
  /-- `OnOffHelper` with `DataRate` (bit/s), `PacketSize`, `OnTime` and `OffTime`. -/
  | onOff (dataRate packetSize : Nat) (onTime offTime : String)
  deriving DecidableEq

/-- An installed source: the destination port given to `InetSocketAddress` (a
`uint16_t`) and the times given to `Start` and `Stop`, in seconds. -/
structure SourceApp where
  kind : AppKind
  port : Nat
  start : ℚ
  stop : ℚ
  deriving DecidableEq

/-- A trace hookup handed to `Simulator::Schedule`, with its arguments
`(node, cwndWindow, port)`. -/
inductive TraceCall where
  | TraceCwnd (node cwndWindow port : Nat)
  | TraceSsthresh (node cwndWindow port : Nat)
  deriving DecidableEq

/-- What one iteration of an install loop sets up: the source and the
`Simulator::Schedule (delay, call)` requests it makes, in program order. -/
structure FlowSetup where
  app : SourceApp
  traces : List (ℚ × TraceCall)
  deriving DecidableEq

/-- The loop `for (uint16_t i = 0; i < num_flows; ++i) body`, entered with counter `i`;
`++i` wraps modulo `2^16`.  The first argument bounds the number of iterations
modelled. -/
def flowLoop (body : Nat → FlowSetup) (num_flows : Nat) : Nat → Nat → List FlowSetup
  | 0, _ => []
  | fuel + 1, i =>
    if i < num_flows then body i :: flowLoop body num_flows fuel ((i + 1) % UINT16_MOD)
    else []

/-- The path `TraceCwnd (node, cwndWindow, port)` connects `CwndChange` to. -/
def TraceCwnd (node cwndWindow _port : Nat) : String :=
  "/NodeList/" ++ toString node ++ "/$ns3::TcpL4Protocol/SocketList/"
    ++ toString cwndWindow ++ "/CongestionWindow"

/-- The path `TraceSsthresh (node, cwndWindow, port)` connects `SsthreshChange` to. -/
def TraceSsthresh (node cwndWindow _port : Nat) : String :=
  "/NodeList/" ++ toString node ++ "/$ns3::TcpL4Protocol/SocketList/"
    ++ toString cwndWindow ++ "/SlowStartThreshold"

namespace Bbr

/-- Loop body of `InstallBulkSend` in tcp-bbr-replication.cc (lines 90-96); `stopTime`
is the global stop time. -/
def bulkSendFlow (stopTime : ℚ) (port i : Nat) : FlowSetup :=
  { app :=
      { kind := .bulkSend 0
        port := (port + i) % UINT16_MOD
        start := 1 + (i : ℚ) * (1 / 10)
        stop := stopTime + (i : ℚ) * (1 / 10) }
    traces := [] }

/-- `InstallBulkSend (node, address, port, socketFactory, num_flows)` of
tcp-bbr-replication.cc. -/
def InstallBulkSend (stopTime : ℚ) (port num_flows : Nat) : List FlowSetup :=
  flowLoop (bulkSendFlow stopTime port) num_flows UINT16_MOD 0

/-- Loop body of `InstallOnOff` in tcp-bbr-replication.cc (lines 106-115); `stopTime`
is the function's own `double` parameter. -/
def onOffFlow (dataRate : Nat) (stopTime : ℚ) (port i : Nat) : FlowSetup :=
  { app :=
      { kind := .onOff dataRate 1448 "ns3::ConstantRandomVariable[Constant=1]"
          "ns3::ConstantRandomVariable[Constant=0]"
        port := (port + i) % UINT16_MOD
        start := 1 + (i : ℚ) * (1 / 10)
        stop := stopTime + (i : ℚ) * (1 / 10) }
    traces := [] }

/-- `InstallOnOff (node, address, port, socketFactory, dataRate, num_flows, stopTime)`
of tcp-bbr-replication.cc. -/
def InstallOnOff (dataRate : Nat) (stopTime : ℚ) (port num_flows : Nat) : List FlowSetup :=
  flowLoop (onOffFlow dataRate stopTime port) num_flows UINT16_MOD 0

end Bbr

namespace Reno

/-- The two `Simulator::Schedule` requests of an install loop body in
tcp-reno-custom.cc, in program order. -/
def traceRequests (nodeId cwndWindow port i : Nat) : List (ℚ × TraceCall) :=
  [ (1 + (i : ℚ) * (1 / 10) + 1 / 1000,
      .TraceCwnd nodeId cwndWindow ((port + i) % UINT16_MOD)),
    (1 + (i : ℚ) * (1 / 10) + 1 / 1000,
      .TraceSsthresh nodeId cwndWindow ((port + i) % UINT16_MOD)) ]

/-- Loop body of `InstallBulkSend` in tcp-reno-custom.cc (lines 125-131). -/
def bulkSendFlow (stopTime : ℚ) (nodeId cwndWindow port i : Nat) : FlowSetup :=
  { app :=
      { kind := .bulkSend 0
        port := (port + i) % UINT16_MOD
        start := 1 + (i : ℚ) * (1 / 10)
        stop := stopTime + (i : ℚ) * (1 / 10) }
    traces := traceRequests nodeId cwndWindow port i }

/-- `InstallBulkSend (node, address, port, socketFactory, nodeId, cwndWindow, num_flows)`
of tcp-reno-custom.cc. -/
def InstallBulkSend (stopTime : ℚ) (nodeId cwndWindow port num_flows : Nat) :
    List FlowSetup :=
  flowLoop (bulkSendFlow stopTime nodeId cwndWindow port) num_flows UINT16_MOD 0

/-- Loop body of `InstallOnOff` in tcp-reno-custom.cc (lines 141-154). -/
def onOffFlow (dataRate : Nat) (stopTime : ℚ) (nodeId cwndWindow port i : Nat) :
    FlowSetup :=
  { app :=
      { kind := .onOff dataRate 512 "ns3::ConstantRandomVariable[Constant=1]"
          "ns3::ConstantRandomVariable[Constant=0]"
        port := (port + i) % UINT16_MOD
        start := 1 + (i : ℚ) * (1 / 10)
        stop := stopTime + (i : ℚ) * (1 / 10) }
    traces := traceRequests nodeId cwndWindow port i }

/-- `InstallOnOff (node, address, port, socketFactory, nodeId, cwndWindow, dataRate,
num_flows, stopTime)` of tcp-reno-custom.cc. -/
def InstallOnOff (dataRate : Nat) (stopTime : ℚ) (nodeId cwndWindow port num_flows : Nat) :
    List FlowSetup :=
  flowLoop (onOffFlow dataRate stopTime nodeId cwndWindow port) num_flows UINT16_MOD 0

end Reno

/-- Stop time of the source with index `i` among the installed ones, if there is one. -/
def stopOf (flows : List FlowSetup) (i : Nat) : Option ℚ :=
  (flows.get? i).map fun f => f.app.stop

/-! ## The steps of `main` -/

/-- What the programs find in the world around them. -/
structure Env where
  /-- The names the `TypeId` registry knows (`TypeId::LookupByNameFailSafe`). -/
  registered : String → Bool
  /-- Whether `stat (path, &buffer)` returns 0. -/
  dirExists : String → Bool
  /-- The return value of `system ("rm -rf ...")`. -/
  rmStatus : Int
  /-- Whether `NS_ASSERT` is compiled in (debug builds). -/
  assertsEnabled : Bool

/-- An action of `main` that is visible outside the program text. -/
inductive Effect where
  /-- The program terminates with a diagnostic. -/
  | abort (msg : String)
  /-- A library call that touches neither the file system nor the scheduler. -/
  | call (what : String)
  | setDefault (name value : String)
  | setAttribute (object name value : String)
  | stat (path : String)
  | system (cmd : String)
  | makeDirectories (path : String)
  | openFile (path : String)
  | createFileStream (path : String)
  | enablePcapAll (stem : String)
  | setRootQueueDisc (typeId maxSize : String)
  | scheduleNow (what : String)
  | installSources (flows : List FlowSetup)
  | simulatorStop (t : ℚ)
  | simulatorRun
  | simulatorDestroy
  deriving DecidableEq

/-- The actions that read or change the file system. -/
def Effect.isFilesystem : Effect → Bool
  | .stat _ | .system _ | .makeDirectories _ | .openFile _ | .createFileStream _
  | .enablePcapAll _ => true
  | _ => false

/-- A statement of `main`. -/
inductive Step where
  /-- A statement that performs the action. -/
  | act (e : Effect)
  /-- `NS_ABORT_MSG_UNLESS (cond, msg)`: active in every build. -/
  | abortUnless (cond : Bool) (msg : String)
  /-- `NS_ASSERT_MSG (cond, msg)`: active when assertions are compiled in. -/
  | assert (cond : Bool) (msg : String)

/-- Runs the statements in order and stops at the first failed check. -/
def exec (assertsEnabled : Bool) : List Step → List Effect
  | [] => []
  | .act e :: rest => e :: exec assertsEnabled rest
  | .abortUnless cond msg :: rest =>
    if cond then exec assertsEnabled rest else [.abort msg]
  | .assert cond msg :: rest =>
    if cond || !assertsEnabled then exec assertsEnabled rest else [.abort msg]

/-- `TypeId::LookupByName (name)`: the library asserts that the name is registered. -/
def lookupByName (env : Env) (name : String) : Step :=
  .assert (env.registered name) ("Assert in TypeId::LookupByName: " ++ name ++ " not found")

/-- The directory block shared by both programs: `stat`, `rm -rf` of an existing
directory with its `NS_ASSERT_MSG (retVal == 0, ...)`. -/
def removeExisting (env : Env) (dir : String) : List Step :=
  .act (.stat dir) ::
    (if env.dirExists dir then
      [.act (.system ("rm -rf " ++ dir)), .assert (env.rmStatus == 0) "Error in return value"]
    else [])

namespace Bbr

/-- Values `main` of tcp-bbr-replication.cc takes from the command line, with their
defaults. -/
structure Config where
  tcpTypeId : String := "ns3::TcpCubic"
  qdiscTypeId : String := "ns3::FifoQueueDisc"
  segmentSize : Nat := 1448
  delAckCount : Nat := 1
  isSack : Bool := true
  stopTime : ℚ := 60
  qdiscSize : String := "0.1MB"
  delay : String := "4.8ms"
  bottleneck_bandwidth : String := "1.25Mbps"
  deriving DecidableEq

/-- The label `tcpTypeIdStr` (lines 173-178). -/
def tcpTypeIdStr (tcpTypeId : String) : String :=
  if tcpTypeId = "ns3::TcpCubic" then "Cubic"
  else if tcpTypeId = "ns3::TcpBbr" then "Bbr"
  else ""

/-- The result directory `dir` (line 181). -/
def dir (c : Config) : String :=
  "tcp-bbr-cubic-results/" ++ c.qdiscSize ++ "_" ++ c.bottleneck_bandwidth ++ "_" ++ c.delay
    ++ "_" ++ tcpTypeIdStr c.tcpTypeId ++ "/"

/-- The statements of `main` of tcp-bbr-replication.cc up to `Simulator::Run ()`, in
source order (lines 138-331).  The check of `qdiscTypeId` at lines 183-185 is commented
out in the source; the identifier is first resolved, through `TypeId::LookupByName`,
when `SetRootQueueDisc` builds its object factory (line 281). -/
def setup (env : Env) (c : Config) : List Step :=
  [ .act (.call "LogComponentEnable BulkSendApplication"),
    .act (.call "LogComponentEnable PacketSink"),
    .act (.call "LogComponentEnable TcpL4Protocol"),
    .act (.call "CommandLine::Parse"),
    .abortUnless (env.registered c.tcpTypeId) ("TypeId " ++ c.tcpTypeId ++ " not found"),
    lookupByName env c.tcpTypeId,
    .act (.setDefault "ns3::TcpL4Protocol::SocketType" c.tcpTypeId),
    .act (.setDefault "ns3::TcpSocket::SndBufSize" "2147483647"),
    .act (.setDefault "ns3::TcpSocket::RcvBufSize" "2147483647"),
    .act (.setDefault "ns3::TcpSocket::InitialCwnd" "10"),
    .act (.setDefault "ns3::TcpSocket::DelAckCount" (toString c.delAckCount)),
    .act (.setDefault "ns3::TcpSocket::SegmentSize" (toString c.segmentSize)),
    .act (.setDefault "ns3::DropTailQueue<Packet>::MaxSize" "1p"),
    .act (.setDefault "ns3::TcpSocketBase::Sack" (toString c.isSack)),
    .act (.call "NodeContainer::Create router leftNode rightNode"),
    .act (.setAttribute "accessLink" "DataRate" "1Gbps"),
    .act (.setAttribute "accessLink" "Delay" c.delay),
    .act (.setAttribute "bottleneckLink" "DataRate" c.bottleneck_bandwidth),
    .act (.setAttribute "bottleneckLink" "Delay" c.delay),
    .act (.setAttribute "bottleneckLink" "ns3::DropTailQueue MaxSize" "1p"),
    .act (.call "accessLink.Install leftNode router"),
    .act (.call "bottleneckLink.Install router rightNode"),
    .act (.call "InternetStackHelper::Install leftNode rightNode router"),
    .act (.call "Ipv4AddressHelper::Assign leftToRouter routerToRight"),
    .act (.call "Ipv4GlobalRoutingHelper::PopulateRoutingTables") ]
  ++ removeExisting env (dir c) ++
  [ .act (.makeDirectories (dir c)),
    .act (.makeDirectories (dir c ++ "/queueTraces/")),
    .act (.call "FlowMonitorHelper::InstallAll"),
    lookupByName env c.qdiscTypeId,
    .act (.setRootQueueDisc c.qdiscTypeId c.qdiscSize),
    .act (.call "TrafficControlHelper::Uninstall leftToRouter.Get(1)"),
    .act (.call "TrafficControlHelper::Uninstall routerToRight.Get(0)"),
    .act (.call "TrafficControlHelper::Install leftToRouter.Get(1)"),
    .act (.call "TrafficControlHelper::Install routerToRight.Get(0)"),
    .act (.openFile (dir c ++ "queue-size.dat")),
    .act (.scheduleNow "CheckQueueSize"),
    .act (.createFileStream (dir c ++ "/queueTraces/drop-0.dat")),
    .act (.call "TraceConnectWithoutContext Drop DropAtQueue"),
    .act (.call "InstallPacketSink rightNode 50000"),
    .act (.installSources (InstallBulkSend c.stopTime 50000 1)),
    .act (.simulatorStop c.stopTime),
    .act .simulatorRun ]

/-- The statements of `main` after `Simulator::Run ()` returns (lines 333-379). -/
def report (c : Config) : List Step :=
  [ .act (.call "FlowMonitor::CheckForLostPackets"),
    .act (.openFile (dir c ++ "goodput_retransmission_results.txt")),
    .act (.call "write flow statistics"),
    .act (.openFile (dir c ++ "queueStats.txt")),
    .act (.call "write queue statistics"),
    .act (.openFile (dir c ++ "config.txt")),
    .act (.call "write configuration"),
    .act .simulatorDestroy ]

/-- The statements of `main` of tcp-bbr-replication.cc. -/
def main (env : Env) (c : Config) : List Step :=
  setup env c ++ report c

end Bbr

namespace Reno

/-- Values `main` of tcp-reno-custom.cc takes from the command line, with their
defaults. -/
structure Config where
  tcpTypeId : String := "ns3::TcpCubic"
  qdiscTypeId : String := "ns3::FifoQueueDisc"
  segmentSize : Nat := 1448
  delAckCount : Nat := 1
  isSack : Bool := true
  stopTime : ℚ := 60
  recovery : String := "ns3::TcpClassicRecovery"
  deriving DecidableEq

/-- The global `dir` of tcp-reno-custom.cc (line 57). -/
def dir : String := "results/"

/-- The statements of `main` of tcp-reno-custom.cc up to `Simulator::Run ()`, in source
order (lines 194-386); `nodeId` is `leftNode.Get (0)->GetId ()`.  The check of
`qdiscTypeId` at lines 218-220 is commented out in the source; the identifier is first
resolved, through `TypeId::LookupByName`, when `SetRootQueueDisc` builds its object
factory (line 335). -/
def setup (env : Env) (c : Config) (nodeId : Nat) : List Step :=
  [ .act (.call "CommandLine::Parse"),
    lookupByName env c.recovery,
    .act (.setDefault "ns3::TcpL4Protocol::RecoveryType" c.recovery),
    .abortUnless (env.registered c.tcpTypeId) ("TypeId " ++ c.tcpTypeId ++ " not found"),
    lookupByName env c.tcpTypeId,
    .act (.setDefault "ns3::TcpL4Protocol::SocketType" c.tcpTypeId),
    .act (.call "NodeContainer::Create router leftNode rightNode"),
    .act (.setAttribute "accessLink" "DataRate" "100Mbps"),
    .act (.setAttribute "accessLink" "Delay" "4.8ms"),
    .act (.setAttribute "accessLink" "ns3::DropTailQueue MaxSize" "1p"),
    .act (.setAttribute "bottleneckLink" "DataRate" "1.25Mbps"),
    .act (.setAttribute "bottleneckLink" "Delay" "4.8ms"),
    .act (.setAttribute "bottleneckLink" "ns3::DropTailQueue MaxSize" "1p"),
    .act (.call "accessLink.Install leftNode router"),
    .act (.call "bottleneckLink.Install router rightNode"),
    .act (.call "SetMtu leftToRouter.Get(0) 1500"),
    .act (.call "SetMtu routerToRight.Get(0) 1500"),
    .act (.call "InternetStackHelper::Install leftNode rightNode router"),
    .act (.call "Ipv4AddressHelper::Assign leftToRouter routerToRight"),
    .act (.call "Ipv4GlobalRoutingHelper::PopulateRoutingTables"),
    .act (.setDefault "ns3::TcpSocket::SndBufSize" "1048576"),
    .act (.setDefault "ns3::TcpSocket::RcvBufSize" "1048576"),
    .act (.setDefault "ns3::TcpSocket::InitialCwnd" "10"),
    .act (.setDefault "ns3::TcpSocket::DelAckCount" (toString c.delAckCount)),
    .act (.setDefault "ns3::TcpSocket::SegmentSize" (toString c.segmentSize)),
    .act (.setDefault "ns3::TcpSocketBase::Sack" (toString c.isSack)) ]
  ++ removeExisting env dir ++
  [ .act (.makeDirectories dir),
    .act (.makeDirectories (dir ++ "/pcap/")),
    .act (.makeDirectories (dir ++ "/queueTraces/")),
    .act (.makeDirectories (dir ++ "/cwndTraces/")),
    .act (.call "FlowMonitorHelper::InstallAll"),
    lookupByName env c.qdiscTypeId,
    .act (.setRootQueueDisc c.qdiscTypeId "0.1MB"),
    .act (.call "TrafficControlHelper::Uninstall routerToRight.Get(0)"),
    .act (.call "TrafficControlHelper::Install routerToRight.Get(0)"),
    .act (.openFile (dir ++ "queue-size.dat")),
    .act (.openFile (dir ++ "cwndTraces/n0.dat")),
    .act (.openFile (dir ++ "cwndTraces/ssthresh.dat")),
    .act (.scheduleNow "CheckQueueSize"),
    .act (.createFileStream (dir ++ "/queueTraces/drop-0.dat")),
    .act (.call "TraceConnectWithoutContext Drop DropAtQueue"),
    .act (.call "InstallPacketSink rightNode 50000"),
    .act (.installSources (InstallBulkSend c.stopTime nodeId 0 50000 1)),
    .act (.enablePcapAll (dir ++ "pcap/ns-3")),
    .act (.simulatorStop c.stopTime),
    .act .simulatorRun ]

/-- The statements of `main` after `Simulator::Run ()` returns (lines 388-423). -/
def report : List Step :=
  [ .act (.call "FlowMonitor::CheckForLostPackets"),
    .act (.call "print flow statistics"),
    .act (.openFile (dir ++ "queueStats.txt")),
    .act (.call "write queue statistics"),
    .act (.openFile (dir ++ "config.txt")),
    .act (.call "write configuration"),
    .act .simulatorDestroy ]

/-- The statements of `main` of tcp-reno-custom.cc. -/
def main (env : Env) (c : Config) (nodeId : Nat) : List Step :=
  setup env c nodeId ++ report

end Reno

/-- A run that ended in an abort without having touched the file system or started the
event loop. -/
def abortedBeforeFilesystem (trace : List Effect) : Bool :=
  (match trace.getLast? with
    | some (.abort _) => true
    | _ => false) &&
  trace.all fun e => !e.isFilesystem && decide (e ≠ .simulatorRun)

/-- A world in which the usual ns-3 types are registered, the result directory of an
earlier run exists, `rm -rf` succeeds and assertions are compiled in. -/
def debugEnv : Env :=
  { registered := fun name =>
      ["ns3::TcpCubic", "ns3::TcpBbr", "ns3::TcpNewReno", "ns3::TcpLinuxReno",
        "ns3::TcpClassicRecovery", "ns3::TcpPrrRecovery", "ns3::FifoQueueDisc",
        "ns3::CoDelQueueDisc"].contains name
    dirExists := fun _ => true
    rmStatus := 0
    assertsEnabled := true }

namespace Bbr

/-- What `main` of tcp-bbr-replication.cc inserts into `config.txt` (lines 372-376). -/
def configEcho (c : Config) : List Tok :=
  [ .str "qdiscTypeId ", .str c.qdiscTypeId, .str "\n",
    .str "segmentSize ", .uint c.segmentSize, .str "\n",
    .str "delAckCount ", .uint c.delAckCount, .str "\n",
    .str "stopTime ", .timeS c.stopTime, .str "\n" ]

end Bbr

namespace Reno

/-- The local `num_streams` of `main` (line 194). -/
def num_streams : Nat := 1

/-- What `main` of tcp-reno-custom.cc inserts into `config.txt` (lines 416-420). -/
def configEcho (c : Config) : List Tok :=
  [ .str "qdiscTypeId ", .str c.qdiscTypeId, .str "\n",
    .str "stream  ", .uint num_streams, .str "\n",
    .str "segmentSize ", .uint c.segmentSize, .str "\n",
    .str "delAckCount ", .uint c.delAckCount, .str "\n",
    .str "stopTime ", .timeS c.stopTime, .str "\n" ]

end Reno

/-- Reads a decimal numeral back: the value of a list of digit characters. -/
def decimalValue (cs : List Char) : Nat :=
  cs.foldl (fun acc c => 10 * acc + (c.toNat - 48)) 0

/-- A stand-in for the stream library's number formatting, for concrete runs. -/
def plainFmt : Fmt :=
  { dbl := fun v => toString v
    timeS := fun t => "+" ++ toString t ++ "s" }

/-! ## Link attributes -/

/-- The value an attribute of a link helper holds after the statements ran: the value
of the last `SetDeviceAttribute`, `SetChannelAttribute` or `SetQueue` for it. -/
def attributeOf (steps : List Step) (object name : String) : Option String :=
  steps.foldl
    (fun acc step =>
      match step with
      | .act (.setAttribute o n v) => if o = object ∧ n = name then some v else acc
      | _ => acc)
    none

namespace Reno

/-- Data rate and delay of a point-to-point link, as attribute strings. -/
structure LinkSpec where
  dataRate : String
  delay : String
  deriving Repr, DecidableEq

/-- The links `main` of tcp-reno-custom.cc configures: access link `n0 - n1` and
bottleneck link `n1 - n3`. -/
def builtTopology (env : Env) (c : Config) (nodeId : Nat) : Option LinkSpec × Option LinkSpec :=
  let steps := setup env c nodeId
  ( (attributeOf steps "accessLink" "DataRate").bind fun r =>
      (attributeOf steps "accessLink" "Delay").map fun d => ⟨r, d⟩,
    (attributeOf steps "bottleneckLink" "DataRate").bind fun r =>
      (attributeOf steps "bottleneckLink" "Delay").map fun d => ⟨r, d⟩ )

/-- The topology the header comment of tcp-reno-custom.cc documents (lines 20-25):
`n0 - n1` at 10 Mbps and 1 ms, `n1 - n3` at 1 Mbps and 10 ms. -/
def headerTopology : Option LinkSpec × Option LinkSpec :=
  (some ⟨"10Mbps", "1ms"⟩, some ⟨"1Mbps", "10ms"⟩)

end Reno

/-! ## Reading off installed flows -/

/-- Destination port of the source with index `i` among the installed ones. -/
def portOf (flows : List FlowSetup) (i : Nat) : Option Nat :=
  (flows.get? i).map fun f => f.app.port

/-- The trace path a scheduled hookup connects to when it runs. -/
def TraceCall.path : TraceCall → String
  | .TraceCwnd node cwndWindow port => Ns3Experiments.TraceCwnd node cwndWindow port
  | .TraceSsthresh node cwndWindow port => Ns3Experiments.TraceSsthresh node cwndWindow port

/-- The port a scheduled hookup binds into its callback (`MakeBoundCallback`). -/
def TraceCall.port : TraceCall → Nat
  | .TraceCwnd _ _ port => port
  | .TraceSsthresh _ _ port => port

/-! ## The queue discipline of the specification -/

/-- Modelled from the spec: the `QueueDisc` of sections 3 and 4.3, whose code is in the
simulation library and not in the two programs.  A bounded buffer with a capacity (in
bytes or packets), the current occupancy and the queued items in arrival order. -/
structure QueueDisc where
  capacity : Nat
  current_occupancy : Int
  items : List QueueDiscItem
  deriving DecidableEq

/-- Modelled from the spec: a freshly installed queue discipline of capacity `C`. -/
def QueueDisc.empty (C : Nat) : QueueDisc :=
  { capacity := C, current_occupancy := 0, items := [] }

/-- Modelled from the spec: `enqueue (packet) -> accepted|dropped` with the drop-tail
policy of section 4.3: if `occupancy + packet.size > capacity` the incoming packet is
dropped, otherwise it is appended and the occupancy increases.  The flag tells whether
the packet was accepted. -/
def QueueDisc.enqueue (q : QueueDisc) (packet : QueueDiscItem) : QueueDisc × Bool :=
  if q.current_occupancy + (packet.size : Int) > (q.capacity : Int) then (q, false)
  else
    ({ q with
        current_occupancy := q.current_occupancy + (packet.size : Int)
        items := q.items ++ [packet] }, true)

/-- Modelled from the spec: `dequeue () -> packet|empty`, which pops in arrival order
(strict FIFO). -/
def QueueDisc.dequeue (q : QueueDisc) : QueueDisc × Option QueueDiscItem :=
  match q.items with
  | [] => (q, none)
  | packet :: rest =>
    ({ q with
        current_occupancy := q.current_occupancy - (packet.size : Int)
        items := rest }, some packet)

/-- An operation the event loop performs on the queue discipline. -/
inductive QueueOp where
  | enqueue (packet : QueueDiscItem)
  | dequeue
  deriving DecidableEq

/-- The queue discipline after one operation. -/
def QueueDisc.step (q : QueueDisc) : QueueOp → QueueDisc
  | .enqueue packet => (q.enqueue packet).1
  | .dequeue => q.dequeue.1

/-- The queue discipline after a sequence of operations, oldest first. -/
def QueueDisc.run (q : QueueDisc) (ops : List QueueOp) : QueueDisc :=
  ops.foldl QueueDisc.step q

/-- Total size of a list of queued items. -/
def totalSize (items : List QueueDiscItem) : Int :=
  (items.map fun p => (p.size : Int)).sum

/-- The occupancy is the total size of the queued items and lies between 0 and the
capacity. -/
def QueueDisc.Bounded (q : QueueDisc) : Prop :=
  q.current_occupancy = totalSize q.items ∧
    0 ≤ q.current_occupancy ∧ q.current_occupancy ≤ (q.capacity : Int)

/-- The value `GetCurrentSize ().GetValue ()` gives `CheckQueueSize` for a queue
discipline: the occupancy as a `uint32_t`. -/
def QueueDisc.currentSize (q : QueueDisc) : Nat :=
  (q.current_occupancy % (UINT32_MOD : Int)).toNat

/-! ## The event queue of the specification -/

/-- Modelled from the spec: the `Event` of section 3, whose code is in the simulation
library: a fire time, the callback and the insertion ordinal that breaks ties. -/
structure Event (α : Type) where
  fire_time : ℚ
  sequence_id : Nat
  callback : α
  deriving DecidableEq

/-- Modelled from the spec: the order in which section 4.1 drains events: by fire time,
ties broken by insertion sequence. -/
def Event.before {α : Type} (a b : Event α) : Prop :=
  a.fire_time < b.fire_time ∨ (a.fire_time = b.fire_time ∧ a.sequence_id < b.sequence_id)

instance {α : Type} (a b : Event α) : Decidable (a.before b) := by
  unfold Event.before; infer_instance

/-- Modelled from the spec: the `EventQueue` of sections 2 and 4.1: the simulation
clock, the next insertion ordinal and the scheduled events that have not fired. -/
structure EventQueue (α : Type) where
  now : ℚ
  nextSeq : Nat
  pending : List (Event α)

/-- Modelled from the spec: an event queue at time zero with nothing scheduled. -/
def EventQueue.empty {α : Type} : EventQueue α :=
  { now := 0, nextSeq := 0, pending := [] }

/-- Modelled from the spec: `schedule (delay, action)`: the event fires at
`now + delay` and takes the next insertion ordinal. -/
def EventQueue.schedule {α : Type} (q : EventQueue α) (delay : ℚ) (action : α) :
    EventQueue α :=
  { q with
    nextSeq := q.nextSeq + 1
    pending := q.pending ++ [⟨q.now + delay, q.nextSeq, action⟩] }

/-- Schedules a list of requests in the order given. -/
def EventQueue.scheduleAll {α : Type} (q : EventQueue α) (requests : List (ℚ × α)) :
    EventQueue α :=
  requests.foldl (fun acc r => acc.schedule r.1 r.2) q

/-- Modelled from the spec: the event that fires next: the pending event that is
earliest in the order of `Event.before`. -/
def earliest {α : Type} : List (Event α) → Option (Event α)
  | [] => none
  | e :: es =>
    match earliest es with
    | none => some e
    | some m => if m.before e then some m else some e

/-- Modelled from the spec: `run_until (deadline)`: fires the pending events with
`fire_time <= deadline` one at a time, earliest first; firing an event advances the
clock to its fire time, removes it from the queue and schedules what its callback
asks for (`handler` gives the requests of a callback).  The result lists the events in
the order they fired; the first argument bounds the number of events fired. -/
def run_until {α : Type} (handler : α → List (ℚ × α)) (deadline : ℚ) :
    Nat → EventQueue α → List (Event α)
  | 0, _ => []
  | fuel + 1, q =>
    match earliest q.pending with
    | none => []
    | some e =>
      if e.fire_time ≤ deadline then
        e :: run_until handler deadline fuel
          (EventQueue.scheduleAll
            { now := e.fire_time
              nextSeq := q.nextSeq
              pending := q.pending.filter fun x => x.sequence_id ≠ e.sequence_id }
            (handler e.callback))
      else []

/-- Every pending event took its ordinal before the next one to be handed out. -/
def EventQueue.Fresh {α : Type} (q : EventQueue α) : Prop :=
  ∀ x ∈ q.pending, x.sequence_id < q.nextSeq

/-- No callback asks for an event in the past. -/
def NonnegDelays {α : Type} (handler : α → List (ℚ × α)) : Prop :=
  ∀ (a : α), ∀ r ∈ handler a, 0 ≤ r.1

/-- The trace hookups `InstallBulkSend` of tcp-reno-custom.cc schedules for all its
flows, in program order. -/
def Reno.scheduledTraces (stopTime : ℚ) (nodeId cwndWindow port num_flows : Nat) :
    List (ℚ × TraceCall) :=
  ((Reno.InstallBulkSend stopTime nodeId cwndWindow port num_flows).map
    fun f => f.traces).flatten

/-- The requests of a trace hookup when it runs: it connects a trace source and
schedules nothing. -/
def hookupRequests (_call : TraceCall) : List (ℚ × TraceCall) := []

/-- The event queue after `InstallBulkSend` of tcp-reno-custom.cc, called as in `main`
(`num_flows = 1`, port 50000) at time zero, scheduled its trace hookups. -/
def Reno.hookupQueue (stopTime : ℚ) (nodeId : Nat) : EventQueue TraceCall :=
  EventQueue.empty.scheduleAll (Reno.scheduledTraces stopTime nodeId 0 50000 1)

/-- No two pending events carry the same insertion ordinal. -/
def EventQueue.Distinct {α : Type} (q : EventQueue α) : Prop :=
  q.pending.Pairwise fun x y => x.sequence_id ≠ y.sequence_id

/-- The event queue right after `run_until` fired the event `e`: the clock stands at
its fire time, `e` is gone and the requests of its callback are scheduled. -/
def EventQueue.afterFiring {α : Type} (handler : α → List (ℚ × α)) (q : EventQueue α)
    (e : Event α) : EventQueue α :=
  EventQueue.scheduleAll
    { now := e.fire_time
      nextSeq := q.nextSeq
      pending := q.pending.filter fun x => x.sequence_id ≠ e.sequence_id }
    (handler e.callback)

/-! ## Theorems -/

theorem sub32_eq_of_le {a b : Nat} (ha : a < UINT32_MOD) (hb : b ≤ a) :
    sub32 a b = a - b := by
  unfold sub32 UINT32_MOD at *
  omega

theorem sub32_lt (a b : Nat) : sub32 a b < UINT32_MOD := by
  unfold sub32 UINT32_MOD
  omega

theorem retransmissions_int (s : FlowStats) (h : s.InRange) :
    (retransmissions s : Int)
      = ((s.txPackets : Int) - s.rxPackets - s.lostPackets) % 4294967296 := by
  obtain ⟨_, _, h1, h2, h3⟩ := h
  unfold retransmissions sub32 UINT32_MOD at *
  omega

/-- C1: for 32-bit packet counters the reported retransmissions value is
`(tx_packets - rx_packets - lost_packets) mod 2^32`; when
`rx_packets + lost_packets <= tx_packets` it is exactly the integer difference, it is
non-negative, and `tx_packets = rx_packets + lost_packets + retransmissions`. -/
theorem retransmissions_spec (s : FlowStats) (h : s.InRange) :
    (retransmissions s : Int)
        = ((s.txPackets : Int) - s.rxPackets - s.lostPackets) % (2 : Int) ^ 32 ∧
      (s.rxPackets + s.lostPackets ≤ s.txPackets →
        (retransmissions s : Int) = (s.txPackets : Int) - s.rxPackets - s.lostPackets ∧
        (0 : Int) ≤ (retransmissions s : Int) ∧
        s.txPackets = s.rxPackets + s.lostPackets + retransmissions s) := by
  have hi := retransmissions_int s h
  obtain ⟨_, _, h1, h2, h3⟩ := h
  unfold UINT32_MOD at *
  refine ⟨by norm_num; exact hi, fun hle => ?_⟩
  omega

theorem retransmissions_spec_witness :
    FlowStats.InRange ⟨150000, 144800, 100, 96, 3⟩ ∧
      retransmissions ⟨150000, 144800, 100, 96, 3⟩ = 1 ∧
      100 = 96 + 3 + retransmissions ⟨150000, 144800, 100, 96, 3⟩ :=
  ⟨by decide, by decide,
    ((retransmissions_spec ⟨150000, 144800, 100, 96, 3⟩ (by decide)).2 (by decide)).2.2⟩

theorem retransmissions_nonneg (s : FlowStats) : (0 : Int) ≤ (retransmissions s : Int) :=
  Int.natCast_nonneg _

/-- C2 (refuted as stated): no flow counters make the reported retransmissions value
negative; at `tx = 1, rx = 2, lost = 0` the program reports 4294967295. -/
theorem retransmissions_never_negative :
    (¬ ∃ s : FlowStats, s.rxPackets + s.lostPackets > s.txPackets ∧
        (retransmissions s : Int) < 0) ∧
      retransmissions ⟨1448, 2896, 1, 2, 0⟩ = 4294967295 := by
  refine ⟨?_, by decide⟩
  rintro ⟨s, _, hneg⟩
  have := retransmissions_nonneg s
  omega

/-- C2 (amended): for 32-bit counters with `rx_packets + lost_packets > tx_packets` the
reported value is not negative: it is the wrapped value
`(tx_packets - rx_packets - lost_packets) mod 2^32`, which is
`2^32 + tx_packets - rx_packets - lost_packets` when the excess is at most `2^32`. -/
theorem retransmissions_wraps (s : FlowStats) (h : s.InRange)
    (hgt : s.rxPackets + s.lostPackets > s.txPackets) :
    (0 : Int) ≤ (retransmissions s : Int) ∧
      (retransmissions s : Int)
        = ((s.txPackets : Int) - s.rxPackets - s.lostPackets) % (2 : Int) ^ 32 ∧
      (s.rxPackets + s.lostPackets - s.txPackets ≤ 2 ^ 32 →
        retransmissions s + (s.rxPackets + s.lostPackets) = 2 ^ 32 + s.txPackets) := by
  have hi := retransmissions_int s h
  obtain ⟨_, _, h1, h2, h3⟩ := h
  unfold UINT32_MOD at *
  refine ⟨retransmissions_nonneg s, by norm_num; exact hi, fun hle => ?_⟩
  norm_num at hle
  omega

theorem retransmissions_wraps_witness :
    FlowStats.InRange ⟨1448, 2896, 1, 2, 0⟩ ∧
      (0 : Int) ≤ (retransmissions ⟨1448, 2896, 1, 2, 0⟩ : Int) ∧
      retransmissions ⟨1448, 2896, 1, 2, 0⟩ + (2 + 0) = 2 ^ 32 + 1 :=
  ⟨by decide,
    (retransmissions_wraps ⟨1448, 2896, 1, 2, 0⟩ (by decide) (by decide)).1,
    (retransmissions_wraps ⟨1448, 2896, 1, 2, 0⟩ (by decide) (by decide)).2.2 (by decide)⟩

theorem throughputMbps_eq_spec_scaled (s : FlowStats) (stopTime : ℚ) :
    throughputMbps s stopTime = specThroughputMbps s stopTime * (15625 / 16384) := by
  unfold throughputMbps specThroughputMbps
  ring

/-- C3 (the code divides by 1024 * 1024, not by 10^6): a flow that received 9375000
bytes in 60 s ran at 1250000 bit/s, which is 1.25 Mbps, and the program reports
78125/65536 (about 1.192). -/
theorem throughputMbps_at_link_rate :
    throughputMbps ⟨9375000, 9375000, 6475, 6475, 0⟩ 60 = 78125 / 65536 ∧
      specThroughputMbps ⟨9375000, 9375000, 6475, 6475, 0⟩ 60 = 5 / 4 ∧
      throughputMbps ⟨9375000, 9375000, 6475, 6475, 0⟩ 60
        ≠ specThroughputMbps ⟨9375000, 9375000, 6475, 6475, 0⟩ 60 := by
  refine ⟨?_, ?_, ?_⟩ <;> norm_num [throughputMbps, specThroughputMbps]

/-- C8 (refuted as stated): the line `DropAtQueue` writes for a packet of flow 2 is the
line it writes for a packet of flow 1, and is not the `(timestamp, flow_id)` line. -/
theorem dropAtQueue_ignores_flow :
    (⟨1, 1500⟩ : QueueDiscItem).flowId ≠ (⟨2, 1500⟩ : QueueDiscItem).flowId ∧
      DropAtQueue 5 ⟨1, 1500⟩ = DropAtQueue 5 ⟨2, 1500⟩ ∧
      DropAtQueue 5 ⟨2, 1500⟩ ≠ specDropLine 5 ⟨2, 1500⟩ := by
  refine ⟨by decide, rfl, ?_⟩
  simp [DropAtQueue, specDropLine]

/-- C8 (amended): for every dropped item the line `DropAtQueue` writes is the current
simulated time followed by the constant text `" 1"` and a line end, whatever the item:
drops of packets of different flows at the same time produce the same line. -/
theorem dropAtQueue_line (f : Fmt) (now : ℚ) (item : QueueDiscItem) :
    DropAtQueue now item = [.dbl now, .str " 1", .endl] ∧
      renderToks f (DropAtQueue now item) = f.dbl now ++ " 1" ++ "\n" ∧
      ∀ other : QueueDiscItem, DropAtQueue now other = DropAtQueue now item := by
  refine ⟨rfl, ?_, fun _ => rfl⟩
  simp [DropAtQueue, renderToks, Tok.render, String.join, String.append_assoc]

/-- C9 (the code schedules 1/1000 s ahead, its comment and the claim say 1/100 s): every
call of `CheckQueueSize` at time `now` schedules the next one at `now + 1/1000`, which
for the call at time 0 is not `0 + 1/100`. -/
theorem checkQueueSize_period :
    (∀ (now : ℚ) (qSize : Nat), nextCheckTime now qSize = now + 1 / 1000) ∧
      nextCheckTime 0 0 = 1 / 1000 ∧
      nextCheckTime 0 0 ≠ 0 + specSamplingPeriod := by
  refine ⟨fun _ _ => rfl, ?_, ?_⟩ <;>
    norm_num [nextCheckTime, CheckQueueSize, specSamplingPeriod]

/-- C10: for `segmentSize > 0`, `CwndChange` and `SsthreshChange` record
`v = floor (new / segmentSize)`, that is `v * segmentSize <= new < (v + 1) * segmentSize`,
tagged with the port passed in and independent of the old value; and the functions have
no result exactly when `segmentSize = 0`. -/
theorem cwndChange_records_floor (segmentSize : Nat) (now : ℚ) (port old new : Nat)
    (hseg : 0 < segmentSize) :
    (∃ v : Nat,
        CwndChange segmentSize now port old new
          = some [.dbl now, .str " ", .uint v, .str " ", .uint port, .endl] ∧
        SsthreshChange segmentSize now port old new
          = some [.dbl now, .str " ", .uint v, .str " ", .uint port, .endl] ∧
        v * segmentSize ≤ new ∧ new < (v + 1) * segmentSize) ∧
      (∀ old2 : Nat,
        CwndChange segmentSize now port old2 new = CwndChange segmentSize now port old new ∧
        SsthreshChange segmentSize now port old2 new
          = SsthreshChange segmentSize now port old new) ∧
      (∀ (seg : Nat) (t : ℚ) (p o n : Nat),
        (CwndChange seg t p o n = none ↔ seg = 0) ∧
        (SsthreshChange seg t p o n = none ↔ seg = 0)) := by
  refine ⟨⟨new / segmentSize, ?_, ?_, Nat.div_mul_le_self new segmentSize, ?_⟩,
    fun _ => ⟨rfl, rfl⟩, fun seg t p o n => ?_⟩
  · simp [CwndChange, Nat.pos_iff_ne_zero.mp hseg]
  · simp [SsthreshChange, Nat.pos_iff_ne_zero.mp hseg]
  · exact (Nat.div_lt_iff_lt_mul hseg).mp (Nat.lt_succ_self _)
  · constructor <;> (by_cases h : seg = 0 <;> simp [CwndChange, SsthreshChange, h])

theorem cwndChange_records_floor_witness :
    0 < 1448 ∧
      CwndChange 1448 (3 / 2) 50000 14480 15000
        = some [.dbl (3 / 2), .str " ", .uint 10, .str " ", .uint 50000, .endl] ∧
      10 * 1448 ≤ 15000 ∧ 15000 < (10 + 1) * 1448 := by
  obtain ⟨⟨v, h1, _, h3, h4⟩, _, _⟩ :=
    cwndChange_records_floor 1448 (3 / 2) 50000 14480 15000 (by decide)
  refine ⟨by decide, ?_, by decide, by decide⟩
  have hv : v = 10 := by omega
  rw [h1, hv]

theorem flowLoop_eq_map (body : Nat → FlowSetup) (num_flows : Nat)
    (hn : num_flows < UINT16_MOD) :
    ∀ (fuel i : Nat), num_flows - i ≤ fuel →
      flowLoop body num_flows fuel i = (List.range' i (num_flows - i)).map body := by
  intro fuel
  induction fuel with
  | zero =>
    intro i h
    have h0 : num_flows - i = 0 := by omega
    simp [flowLoop, h0]
  | succ fuel ih =>
    intro i h
    by_cases hi : i < num_flows
    · have hwrap : (i + 1) % UINT16_MOD = i + 1 := by
        unfold UINT16_MOD at *
        omega
      have hlen : num_flows - i = (num_flows - (i + 1)) + 1 := by omega
      rw [flowLoop, if_pos hi, hwrap, ih (i + 1) (by omega), hlen, List.range'_succ]
      simp
    · have h0 : num_flows - i = 0 := by omega
      simp [flowLoop, hi, h0]

theorem flowLoop_full (body : Nat → FlowSetup) (num_flows : Nat)
    (hn : num_flows < UINT16_MOD) :
    flowLoop body num_flows UINT16_MOD 0 = (List.range num_flows).map body := by
  rw [flowLoop_eq_map body num_flows hn UINT16_MOD 0 (by omega), List.range_eq_range']
  simp

theorem stopOf_flowLoop (body : Nat → FlowSetup) (num_flows i : Nat)
    (hn : num_flows < UINT16_MOD) (hi : i < num_flows) :
    stopOf (flowLoop body num_flows UINT16_MOD 0) i = some (body i).app.stop := by
  rw [flowLoop_full body num_flows hn]
  simp [stopOf, List.get?_eq_getElem?, hi]

/-- C6 (refuted as stated): with `num_flows = 2` and stop time 60 s, the second source
installed by `InstallBulkSend` is stopped at 60.1 s, later than the stop time given to
the simulator. -/
theorem installBulkSend_second_source_stops_late :
    stopOf (Bbr.InstallBulkSend 60 50000 2) 1 = some (601 / 10) ∧
      stopOf (Bbr.InstallBulkSend 60 50000 2) 1 ≠ some 60 ∧
      (60 : ℚ) < 601 / 10 := by
  have h : stopOf (Bbr.InstallBulkSend 60 50000 2) 1 = some (601 / 10) := by
    rw [Bbr.InstallBulkSend, stopOf_flowLoop _ 2 1 (by decide) (by decide)]
    norm_num [Bbr.bulkSendFlow]
  refine ⟨h, ?_, by norm_num⟩
  rw [h]
  norm_num

/-- C6 (amended): for every `num_flows` and every flow index `i < num_flows`, source
`i` installed by `InstallBulkSend` is stopped at the global stop time plus `i / 10` s,
and source `i` installed by `InstallOnOff` at that function's own `stopTime` argument
plus `i / 10` s; this is the stop time given to the simulator for `i = 0` and later than
it for `i > 0`; with `num_flows = 1`, as `main` calls `InstallBulkSend`, every installed
source stops at the global stop time. -/
theorem install_stop_times (stopTime onOffStop : ℚ) (dataRate nodeId cwndWindow : Nat)
    (port num_flows i : Nat) (hn : num_flows < UINT16_MOD) (hi : i < num_flows) :
    stopOf (Bbr.InstallBulkSend stopTime port num_flows) i
        = some (stopTime + (i : ℚ) / 10) ∧
      stopOf (Reno.InstallBulkSend stopTime nodeId cwndWindow port num_flows) i
        = some (stopTime + (i : ℚ) / 10) ∧
      stopOf (Bbr.InstallOnOff dataRate onOffStop port num_flows) i
        = some (onOffStop + (i : ℚ) / 10) ∧
      stopOf (Reno.InstallOnOff dataRate onOffStop nodeId cwndWindow port num_flows) i
        = some (onOffStop + (i : ℚ) / 10) ∧
      (i = 0 → stopTime + (i : ℚ) / 10 = stopTime) ∧
      (0 < i → stopTime < stopTime + (i : ℚ) / 10) ∧
      (∀ f ∈ Bbr.InstallBulkSend stopTime port 1, f.app.stop = stopTime) ∧
      (∀ f ∈ Reno.InstallBulkSend stopTime nodeId cwndWindow port 1,
        f.app.stop = stopTime) := by
  refine ⟨?_, ?_, ?_, ?_, ?_, ?_, ?_, ?_⟩
  · rw [Bbr.InstallBulkSend, stopOf_flowLoop _ _ _ hn hi]
    simp [Bbr.bulkSendFlow, div_eq_mul_inv]
  · rw [Reno.InstallBulkSend, stopOf_flowLoop _ _ _ hn hi]
    simp [Reno.bulkSendFlow, div_eq_mul_inv]
  · rw [Bbr.InstallOnOff, stopOf_flowLoop _ _ _ hn hi]
    simp [Bbr.onOffFlow, div_eq_mul_inv]
  · rw [Reno.InstallOnOff, stopOf_flowLoop _ _ _ hn hi]
    simp [Reno.onOffFlow, div_eq_mul_inv]
  · intro h0
    simp [h0]
  · intro hpos
    have : (0 : ℚ) < (i : ℚ) := by exact_mod_cast hpos
    linarith [div_pos this (by norm_num : (0 : ℚ) < 10)]
  · intro f hf
    rw [Bbr.InstallBulkSend, flowLoop_full _ 1 (by decide)] at hf
    simp at hf
    subst hf
    simp [Bbr.bulkSendFlow]
  · intro f hf
    rw [Reno.InstallBulkSend, flowLoop_full _ 1 (by decide)] at hf
    simp at hf
    subst hf
    simp [Reno.bulkSendFlow]

theorem install_stop_times_witness :
    3 < UINT16_MOD ∧ 2 < 3 ∧
      stopOf (Bbr.InstallBulkSend 60 50000 3) 2 = some (60 + ((2 : Nat) : ℚ) / 10) ∧
      stopOf (Reno.InstallBulkSend 60 0 0 50000 3) 2 = some (60 + ((2 : Nat) : ℚ) / 10) :=
  ⟨by decide, by decide,
    (install_stop_times 60 100 100000000 0 0 50000 3 2 (by decide) (by decide)).1,
    (install_stop_times 60 100 100000000 0 0 50000 3 2 (by decide) (by decide)).2.1⟩

/-- C4: when `tcpTypeId` is not a registered type, `main` of either program ends in an
abort, and nothing it did before touched the file system or started the event loop; in
tcp-bbr-replication.cc the run consists of the logging and command-line calls followed
by the abort with the diagnostic `TypeId <tcpTypeId> not found`. -/
theorem unknown_tcpTypeId_aborts_first (env : Env) (b : Bbr.Config) (r : Reno.Config)
    (nodeId : Nat) (hb : env.registered b.tcpTypeId = false)
    (hr : env.registered r.tcpTypeId = false) :
    exec env.assertsEnabled (Bbr.main env b)
        = [.call "LogComponentEnable BulkSendApplication",
            .call "LogComponentEnable PacketSink",
            .call "LogComponentEnable TcpL4Protocol",
            .call "CommandLine::Parse",
            .abort ("TypeId " ++ b.tcpTypeId ++ " not found")] ∧
      abortedBeforeFilesystem (exec env.assertsEnabled (Bbr.main env b)) = true ∧
      abortedBeforeFilesystem (exec env.assertsEnabled (Reno.main env r nodeId)) = true := by
  have h1 : exec env.assertsEnabled (Bbr.main env b)
      = [.call "LogComponentEnable BulkSendApplication",
          .call "LogComponentEnable PacketSink",
          .call "LogComponentEnable TcpL4Protocol",
          .call "CommandLine::Parse",
          .abort ("TypeId " ++ b.tcpTypeId ++ " not found")] := by
    simp [Bbr.main, Bbr.setup, exec, hb]
  refine ⟨h1, ?_, ?_⟩
  · rw [h1]
    simp [abortedBeforeFilesystem, Effect.isFilesystem]
  · by_cases hrec : (env.registered r.recovery || !env.assertsEnabled) = true
    · have h2 : exec env.assertsEnabled (Reno.main env r nodeId)
          = [.call "CommandLine::Parse",
              .setDefault "ns3::TcpL4Protocol::RecoveryType" r.recovery,
              .abort ("TypeId " ++ r.tcpTypeId ++ " not found")] := by
        simp only [Reno.main, Reno.setup, lookupByName, List.cons_append, exec, hrec, hr]
        simp
      rw [h2]
      simp [abortedBeforeFilesystem, Effect.isFilesystem]
    · have h2 : exec env.assertsEnabled (Reno.main env r nodeId)
          = [.call "CommandLine::Parse",
              .abort ("Assert in TypeId::LookupByName: " ++ r.recovery ++ " not found")] := by
        simp only [Reno.main, Reno.setup, lookupByName, List.cons_append, exec, hrec]
        simp
      rw [h2]
      simp [abortedBeforeFilesystem, Effect.isFilesystem]

theorem unknown_tcpTypeId_aborts_first_witness :
    debugEnv.registered ({ tcpTypeId := "ns3::TcpVegan" } : Bbr.Config).tcpTypeId = false ∧
      debugEnv.registered ({ tcpTypeId := "ns3::TcpVegan" } : Reno.Config).tcpTypeId = false ∧
      abortedBeforeFilesystem
        (exec debugEnv.assertsEnabled (Bbr.main debugEnv { tcpTypeId := "ns3::TcpVegan" }))
        = true ∧
      abortedBeforeFilesystem
        (exec debugEnv.assertsEnabled (Reno.main debugEnv { tcpTypeId := "ns3::TcpVegan" } 1))
        = true :=
  ⟨by decide, by decide,
    (unknown_tcpTypeId_aborts_first debugEnv { tcpTypeId := "ns3::TcpVegan" }
      { tcpTypeId := "ns3::TcpVegan" } 1 (by decide) (by decide)).2⟩

/-- C5 (the queue-discipline identifier is first looked at after the result directory
was removed and re-created): with `qdiscTypeId = "ns3::NoSuchQueueDisc"`, every other
value at its default and an existing result directory, the run of either program
removes the directory and creates the new ones, and only then aborts on the unknown
identifier; the event loop did not start. -/
theorem unknown_qdiscTypeId_removes_results :
    (exec true (Bbr.main debugEnv { qdiscTypeId := "ns3::NoSuchQueueDisc" })).drop 23
        = [.stat "tcp-bbr-cubic-results/0.1MB_1.25Mbps_4.8ms_Cubic/",
            .system "rm -rf tcp-bbr-cubic-results/0.1MB_1.25Mbps_4.8ms_Cubic/",
            .makeDirectories "tcp-bbr-cubic-results/0.1MB_1.25Mbps_4.8ms_Cubic/",
            .makeDirectories "tcp-bbr-cubic-results/0.1MB_1.25Mbps_4.8ms_Cubic//queueTraces/",
            .call "FlowMonitorHelper::InstallAll",
            .abort "Assert in TypeId::LookupByName: ns3::NoSuchQueueDisc not found"] ∧
      (exec true (Reno.main debugEnv { qdiscTypeId := "ns3::NoSuchQueueDisc" } 1)).drop 23
        = [.stat "results/",
            .system "rm -rf results/",
            .makeDirectories "results/",
            .makeDirectories "results//pcap/",
            .makeDirectories "results//queueTraces/",
            .makeDirectories "results//cwndTraces/",
            .call "FlowMonitorHelper::InstallAll",
            .abort "Assert in TypeId::LookupByName: ns3::NoSuchQueueDisc not found"] ∧
      abortedBeforeFilesystem
        (exec true (Bbr.main debugEnv { qdiscTypeId := "ns3::NoSuchQueueDisc" })) = false ∧
      abortedBeforeFilesystem
        (exec true (Reno.main debugEnv { qdiscTypeId := "ns3::NoSuchQueueDisc" } 1))
        = false ∧
      Effect.simulatorRun
        ∉ exec true (Bbr.main debugEnv { qdiscTypeId := "ns3::NoSuchQueueDisc" }) ∧
      Effect.simulatorRun
        ∉ exec true (Reno.main debugEnv { qdiscTypeId := "ns3::NoSuchQueueDisc" } 1) := by
  refine ⟨?_, ?_, ?_, ?_, ?_, ?_⟩ <;> decide

theorem digitChar_value (k : Nat) (hk : k < 10) :
    (Nat.digitChar k).toNat - 48 = k ∧ Nat.digitChar k ≠ '\n' := by
  interval_cases k <;> decide

theorem foldl_toDigitsCore (fuel : Nat) :
    ∀ (n : Nat) (ds : List Char), n < fuel →
      (Nat.toDigitsCore 10 fuel n ds).foldl (fun acc c => 10 * acc + (c.toNat - 48)) 0
        = ds.foldl (fun acc c => 10 * acc + (c.toNat - 48)) n := by
  induction fuel with
  | zero => intro n ds h; omega
  | succ fuel ih =>
    intro n ds h
    have hd := (digitChar_value (n % 10) (Nat.mod_lt _ (by decide))).1
    by_cases h0 : n / 10 = 0
    · have hn : n % 10 = n := by omega
      simp only [Nat.toDigitsCore, h0, if_true, List.foldl_cons, Nat.mul_zero, Nat.zero_add]
      rw [hd, hn]
    · have hlt : n / 10 < fuel := by omega
      simp only [Nat.toDigitsCore, h0, if_false]
      rw [ih (n / 10) _ hlt]
      simp only [List.foldl_cons, hd]
      congr 1
      omega

theorem decimalValue_repr (n : Nat) : decimalValue (toString n).data = n := by
  show decimalValue (Nat.toDigits 10 n) = n
  unfold decimalValue Nat.toDigits
  rw [foldl_toDigitsCore (n + 1) n [] (by omega)]
  rfl

theorem newline_not_mem_toDigitsCore (fuel : Nat) :
    ∀ (n : Nat) (ds : List Char), '\n' ∉ ds → '\n' ∉ Nat.toDigitsCore 10 fuel n ds := by
  induction fuel with
  | zero => intro n ds h; simpa [Nat.toDigitsCore] using h
  | succ fuel ih =>
    intro n ds h
    have hd := (digitChar_value (n % 10) (Nat.mod_lt _ (by decide))).2
    have hcons : '\n' ∉ Nat.digitChar (n % 10) :: ds := by
      simp only [List.mem_cons, not_or]
      exact ⟨fun e => hd e.symm, h⟩
    by_cases h0 : n / 10 = 0
    · simpa [Nat.toDigitsCore, h0] using hcons
    · simp only [Nat.toDigitsCore, h0, if_false]
      exact ih _ _ hcons

theorem newline_not_mem_repr (n : Nat) : '\n' ∉ (toString n).data := by
  show '\n' ∉ Nat.toDigits 10 n
  exact newline_not_mem_toDigitsCore _ _ _ (by simp)

theorem toString_nat_injective {m n : Nat} (h : toString m = toString n) : m = n := by
  have := congrArg (fun s => decimalValue s.data) h
  simpa [decimalValue_repr] using this

theorem list_split_at_sep {α : Type} (sep : α) :
    ∀ (a b r1 r2 : List α), sep ∉ a → sep ∉ b →
      a ++ sep :: r1 = b ++ sep :: r2 → a = b ∧ r1 = r2 := by
  intro a
  induction a with
  | nil =>
    intro b r1 r2 _ hb h
    cases b with
    | nil => simpa using h
    | cons y ys =>
      simp only [List.nil_append, List.cons_append, List.cons.injEq] at h
      exact absurd (h.1 ▸ List.mem_cons_self _ _) hb
  | cons x xs ih =>
    intro b r1 r2 ha hb h
    cases b with
    | nil =>
      simp only [List.nil_append, List.cons_append, List.cons.injEq] at h
      exact absurd (h.1 ▸ List.mem_cons_self _ _) ha
    | cons y ys =>
      simp only [List.cons_append, List.cons.injEq] at h
      obtain ⟨hxy, hrest⟩ := h
      have ha2 : sep ∉ xs := fun hm => ha (List.mem_cons_of_mem _ hm)
      have hb2 : sep ∉ ys := fun hm => hb (List.mem_cons_of_mem _ hm)
      obtain ⟨e1, e2⟩ := ih ys r1 r2 ha2 hb2 hrest
      exact ⟨by rw [hxy, e1], e2⟩

theorem line_split (a b r1 r2 : String) (ha : '\n' ∉ a.data) (hb : '\n' ∉ b.data)
    (h : a ++ ("\n" ++ r1) = b ++ ("\n" ++ r2)) : a = b ∧ r1 = r2 := by
  have hd := congrArg String.data h
  simp only [String.data_append] at hd
  obtain ⟨e1, e2⟩ := list_split_at_sep '\n' a.data b.data r1.data r2.data ha hb hd
  exact ⟨String.ext e1, String.ext e2⟩

theorem string_append_cancel_left (p x y : String) (h : p ++ x = p ++ y) : x = y := by
  have hd := congrArg String.data h
  simp only [String.data_append] at hd
  exact String.ext (List.append_cancel_left hd)

theorem string_append_cancel_right (x y p : String) (h : x ++ p = y ++ p) : x = y := by
  have hd := congrArg String.data h
  simp only [String.data_append] at hd
  exact String.ext (List.append_cancel_right hd)

theorem bbr_configEcho_text (f : Fmt) (c : Bbr.Config) :
    renderToks f (Bbr.configEcho c)
      = "qdiscTypeId " ++ (c.qdiscTypeId ++ ("\n" ++ ("segmentSize " ++
          (toString c.segmentSize ++ ("\n" ++ ("delAckCount " ++
          (toString c.delAckCount ++ ("\n" ++ ("stopTime " ++
          (f.timeS c.stopTime ++ "\n")))))))))) := by
  simp only [Bbr.configEcho, renderToks, Tok.render, String.join, List.map, List.foldl,
    String.append_assoc, String.empty_append]

theorem reno_configEcho_text (f : Fmt) (c : Reno.Config) :
    renderToks f (Reno.configEcho c)
      = "qdiscTypeId " ++ (c.qdiscTypeId ++ ("\n" ++ ("stream  " ++
          (toString Reno.num_streams ++ ("\n" ++ ("segmentSize " ++
          (toString c.segmentSize ++ ("\n" ++ ("delAckCount " ++
          (toString c.delAckCount ++ ("\n" ++ ("stopTime " ++
          (f.timeS c.stopTime ++ "\n"))))))))))))) := by
  simp only [Reno.configEcho, renderToks, Tok.render, String.join, List.map, List.foldl,
    String.append_assoc, String.empty_append]

theorem echo_tail_inj (t1 t2 : String) (s1 s2 d1 d2 : Nat)
    (h : "segmentSize " ++ (toString s1 ++ ("\n" ++ ("delAckCount " ++
          (toString d1 ++ ("\n" ++ ("stopTime " ++ (t1 ++ "\n")))))))
       = "segmentSize " ++ (toString s2 ++ ("\n" ++ ("delAckCount " ++
          (toString d2 ++ ("\n" ++ ("stopTime " ++ (t2 ++ "\n")))))))) :
    s1 = s2 ∧ d1 = d2 ∧ t1 = t2 := by
  have h1 := string_append_cancel_left _ _ _ h
  obtain ⟨es, h2⟩ := line_split _ _ _ _ (newline_not_mem_repr s1) (newline_not_mem_repr s2) h1
  have h3 := string_append_cancel_left _ _ _ h2
  obtain ⟨ed, h4⟩ := line_split _ _ _ _ (newline_not_mem_repr d1) (newline_not_mem_repr d2) h3
  have h5 := string_append_cancel_left _ _ _ h4
  exact ⟨toString_nat_injective es, toString_nat_injective ed,
    string_append_cancel_right _ _ _ h5⟩

/-- C7 (refuted as stated): two runs of tcp-bbr-replication.cc that differ in the
algorithm identifier, and two runs of tcp-reno-custom.cc that differ in the SACK flag,
write the same configuration echo. -/
theorem configEcho_omits_inputs :
    ({} : Bbr.Config) ≠ { tcpTypeId := "ns3::TcpBbr" } ∧
      Bbr.configEcho {} = Bbr.configEcho { tcpTypeId := "ns3::TcpBbr" } ∧
      ({} : Reno.Config) ≠ { isSack := false } ∧
      Reno.configEcho {} = Reno.configEcho { isSack := false } ∧
      ¬ ∀ (f : Fmt) (c1 c2 : Bbr.Config), c1 ≠ c2 →
          renderToks f (Bbr.configEcho c1) ≠ renderToks f (Bbr.configEcho c2) := by
  refine ⟨by decide, rfl, by decide, rfl, fun h => ?_⟩
  exact h plainFmt {} { tcpTypeId := "ns3::TcpBbr" } (by decide) rfl

/-- C7 (amended): the configuration echo records the queue discipline identifier, the
segment size, the delayed-ACK count and the stop time (in tcp-reno-custom.cc also the
constant stream count), and nothing else: two runs whose queue discipline identifiers
hold no line break write the same echo exactly when they agree on these four inputs,
the stop time as the library prints it. -/
theorem configEcho_records_four_inputs (f : Fmt) (b1 b2 : Bbr.Config) (r1 r2 : Reno.Config)
    (hb1 : '\n' ∉ b1.qdiscTypeId.data) (hb2 : '\n' ∉ b2.qdiscTypeId.data)
    (hr1 : '\n' ∉ r1.qdiscTypeId.data) (hr2 : '\n' ∉ r2.qdiscTypeId.data) :
    (renderToks f (Bbr.configEcho b1) = renderToks f (Bbr.configEcho b2) ↔
        b1.qdiscTypeId = b2.qdiscTypeId ∧ b1.segmentSize = b2.segmentSize ∧
        b1.delAckCount = b2.delAckCount ∧ f.timeS b1.stopTime = f.timeS b2.stopTime) ∧
      (renderToks f (Reno.configEcho r1) = renderToks f (Reno.configEcho r2) ↔
        r1.qdiscTypeId = r2.qdiscTypeId ∧ r1.segmentSize = r2.segmentSize ∧
        r1.delAckCount = r2.delAckCount ∧ f.timeS r1.stopTime = f.timeS r2.stopTime) := by
  constructor
  · rw [bbr_configEcho_text, bbr_configEcho_text]
    constructor
    · intro h
      have h1 := string_append_cancel_left _ _ _ h
      obtain ⟨eq, h2⟩ := line_split _ _ _ _ hb1 hb2 h1
      obtain ⟨es, ed, et⟩ := echo_tail_inj _ _ _ _ _ _ h2
      exact ⟨eq, es, ed, et⟩
    · rintro ⟨eq, es, ed, et⟩
      rw [eq, es, ed, et]
  · rw [reno_configEcho_text, reno_configEcho_text]
    constructor
    · intro h
      have h1 := string_append_cancel_left _ _ _ h
      obtain ⟨eq, h2⟩ := line_split _ _ _ _ hr1 hr2 h1
      have h3 := string_append_cancel_left _ _ _ h2
      have h4 := string_append_cancel_left _ _ _ h3
      have h5 := string_append_cancel_left _ _ _ h4
      obtain ⟨es, ed, et⟩ := echo_tail_inj _ _ _ _ _ _ h5
      exact ⟨eq, es, ed, et⟩
    · rintro ⟨eq, es, ed, et⟩
      rw [eq, es, ed, et]

theorem configEcho_records_four_inputs_witness :
    '\n' ∉ ({} : Bbr.Config).qdiscTypeId.data ∧
      '\n' ∉ ({ segmentSize := 536 } : Bbr.Config).qdiscTypeId.data ∧
      renderToks plainFmt (Bbr.configEcho {})
        ≠ renderToks plainFmt (Bbr.configEcho { segmentSize := 536 }) ∧
      renderToks plainFmt (Reno.configEcho {})
        = renderToks plainFmt (Reno.configEcho { tcpTypeId := "ns3::TcpNewReno" }) :=
  ⟨by decide, by decide,
    fun h => absurd
      (((configEcho_records_four_inputs plainFmt {} { segmentSize := 536 } {} {}
        (by decide) (by decide) (by decide) (by decide)).1.mp h).2.1) (by decide),
    (configEcho_records_four_inputs plainFmt {} {} {} { tcpTypeId := "ns3::TcpNewReno" }
      (by decide) (by decide) (by decide) (by decide)).2.mpr ⟨rfl, rfl, rfl, rfl⟩⟩

theorem reno_builtTopology (env : Env) (c : Reno.Config) (nodeId : Nat) :
    Reno.builtTopology env c nodeId
      = (some ⟨"100Mbps", "4.8ms"⟩, some ⟨"1.25Mbps", "4.8ms"⟩) := by
  cases hdir : env.dirExists Reno.dir <;>
    simp [Reno.builtTopology, Reno.setup, removeExisting, attributeOf, lookupByName, hdir]

/-- C11 (the code does not build the topology its header documents): in every run of
tcp-reno-custom.cc the access link is configured with 100 Mbps and 4.8 ms and the
bottleneck link with 1.25 Mbps and 4.8 ms, not with the 10 Mbps / 1 ms and
1 Mbps / 10 ms of the header comment. -/
theorem reno_topology_differs_from_header :
    (∀ (env : Env) (c : Reno.Config) (nodeId : Nat),
        Reno.builtTopology env c nodeId
          = (some ⟨"100Mbps", "4.8ms"⟩, some ⟨"1.25Mbps", "4.8ms"⟩)) ∧
      Reno.builtTopology debugEnv {} 0 ≠ Reno.headerTopology := by
  refine ⟨reno_builtTopology, ?_⟩
  rw [reno_builtTopology]
  decide

theorem wrapped_ports_differ (port i j : Nat) (hij : i < j) (hj : j < UINT16_MOD) :
    (port + i) % UINT16_MOD ≠ (port + j) % UINT16_MOD := by
  unfold UINT16_MOD at *
  omega

theorem flowLoop_any_fuel (body : Nat → FlowSetup) (num_flows fuel : Nat)
    (hn : num_flows < UINT16_MOD) (hf : num_flows ≤ fuel) :
    flowLoop body num_flows fuel 0 = (List.range num_flows).map body := by
  rw [flowLoop_eq_map body num_flows hn fuel 0 (by omega), List.range_eq_range']
  simp

theorem flowLoop_get (body : Nat → FlowSetup) (num_flows i : Nat)
    (hn : num_flows < UINT16_MOD) (hi : i < num_flows) :
    (flowLoop body num_flows UINT16_MOD 0).get? i = some (body i) := by
  rw [flowLoop_full body num_flows hn]
  simp [List.get?_eq_getElem?, hi]

theorem flowLoop_ports (body : Nat → FlowSetup) (port num_flows : Nat)
    (hbody : ∀ i, (body i).app.port = (port + i) % UINT16_MOD)
    (hn : num_flows < UINT16_MOD) :
    (flowLoop body num_flows UINT16_MOD 0).length = num_flows ∧
      ∀ i j : Nat, i < j → j < num_flows →
        portOf (flowLoop body num_flows UINT16_MOD 0) i = some ((port + i) % UINT16_MOD) ∧
        portOf (flowLoop body num_flows UINT16_MOD 0) j = some ((port + j) % UINT16_MOD) ∧
        portOf (flowLoop body num_flows UINT16_MOD 0) i
          ≠ portOf (flowLoop body num_flows UINT16_MOD 0) j := by
  constructor
  · rw [flowLoop_full body num_flows hn]
    simp
  · intro i j hij hj
    have hi : i < num_flows := by omega
    have e1 : portOf (flowLoop body num_flows UINT16_MOD 0) i
        = some ((port + i) % UINT16_MOD) := by
      unfold portOf
      rw [flowLoop_get body num_flows i hn hi]
      simp [hbody]
    have e2 : portOf (flowLoop body num_flows UINT16_MOD 0) j
        = some ((port + j) % UINT16_MOD) := by
      unfold portOf
      rw [flowLoop_get body num_flows j hn hj]
      simp [hbody]
    refine ⟨e1, e2, ?_⟩
    rw [e1, e2]
    intro h
    exact wrapped_ports_differ port i j hij (by omega) (Option.some.inj h)

theorem flowLoop_port_at (body : Nat → FlowSetup) (port num_flows i : Nat)
    (hbody : ∀ k, (body k).app.port = (port + k) % UINT16_MOD)
    (hn : num_flows < UINT16_MOD) (hi : i < num_flows) :
    portOf (flowLoop body num_flows UINT16_MOD 0) i = some ((port + i) % UINT16_MOD) := by
  unfold portOf
  rw [flowLoop_get body num_flows i hn hi]
  simp [hbody]

/-- C16: for every 16-bit `num_flows` (and every base port) each install loop ends by
its own condition after exactly `num_flows` iterations, whatever bound of at least
`num_flows` iterations is put on it; in each of the four installers the port given to
`InetSocketAddress` for flow `i < num_flows` is `(port + i) mod 2^16`, and for all flow
indices `i < j < num_flows` these ports differ. -/
theorem install_ports_distinct (stopTime onOffStop : ℚ) (dataRate nodeId cwndWindow : Nat)
    (port num_flows : Nat) (hn : num_flows < UINT16_MOD) :
    (∀ (body : Nat → FlowSetup) (fuel : Nat), num_flows ≤ fuel →
        flowLoop body num_flows fuel 0 = (List.range num_flows).map body ∧
        (flowLoop body num_flows fuel 0).length = num_flows) ∧
      ((Bbr.InstallBulkSend stopTime port num_flows).length = num_flows ∧
        (Bbr.InstallOnOff dataRate onOffStop port num_flows).length = num_flows ∧
        (Reno.InstallBulkSend stopTime nodeId cwndWindow port num_flows).length
          = num_flows ∧
        (Reno.InstallOnOff dataRate onOffStop nodeId cwndWindow port num_flows).length
          = num_flows) ∧
      (∀ i : Nat, i < num_flows →
        portOf (Bbr.InstallBulkSend stopTime port num_flows) i
          = some ((port + i) % UINT16_MOD) ∧
        portOf (Bbr.InstallOnOff dataRate onOffStop port num_flows) i
          = some ((port + i) % UINT16_MOD) ∧
        portOf (Reno.InstallBulkSend stopTime nodeId cwndWindow port num_flows) i
          = some ((port + i) % UINT16_MOD) ∧
        portOf (Reno.InstallOnOff dataRate onOffStop nodeId cwndWindow port num_flows) i
          = some ((port + i) % UINT16_MOD)) ∧
      ∀ i j : Nat, i < j → j < num_flows →
        (port + i) % UINT16_MOD ≠ (port + j) % UINT16_MOD ∧
        portOf (Bbr.InstallBulkSend stopTime port num_flows) i
          = some ((port + i) % UINT16_MOD) ∧
        portOf (Bbr.InstallBulkSend stopTime port num_flows) i
          ≠ portOf (Bbr.InstallBulkSend stopTime port num_flows) j ∧
        portOf (Bbr.InstallOnOff dataRate onOffStop port num_flows) i
          ≠ portOf (Bbr.InstallOnOff dataRate onOffStop port num_flows) j ∧
        portOf (Reno.InstallBulkSend stopTime nodeId cwndWindow port num_flows) i
          ≠ portOf (Reno.InstallBulkSend stopTime nodeId cwndWindow port num_flows) j ∧
        portOf (Reno.InstallOnOff dataRate onOffStop nodeId cwndWindow port num_flows) i
          ≠ portOf (Reno.InstallOnOff dataRate onOffStop nodeId cwndWindow port num_flows)
              j := by
  have h1 := flowLoop_ports (Bbr.bulkSendFlow stopTime port) port num_flows
    (fun _ => rfl) hn
  have h2 := flowLoop_ports (Bbr.onOffFlow dataRate onOffStop port) port num_flows
    (fun _ => rfl) hn
  have h3 := flowLoop_ports (Reno.bulkSendFlow stopTime nodeId cwndWindow port) port
    num_flows (fun _ => rfl) hn
  have h4 := flowLoop_ports (Reno.onOffFlow dataRate onOffStop nodeId cwndWindow port) port
    num_flows (fun _ => rfl) hn
  refine ⟨fun body fuel hf => ?_, ⟨h1.1, h2.1, h3.1, h4.1⟩, fun i hi => ?_,
    fun i j hij hj => ?_⟩
  · have e := flowLoop_any_fuel body num_flows fuel hn hf
    exact ⟨e, by rw [e]; simp⟩
  · exact ⟨flowLoop_port_at (Bbr.bulkSendFlow stopTime port) port num_flows i
        (fun _ => rfl) hn hi,
      flowLoop_port_at (Bbr.onOffFlow dataRate onOffStop port) port num_flows i
        (fun _ => rfl) hn hi,
      flowLoop_port_at (Reno.bulkSendFlow stopTime nodeId cwndWindow port) port num_flows i
        (fun _ => rfl) hn hi,
      flowLoop_port_at (Reno.onOffFlow dataRate onOffStop nodeId cwndWindow port) port
        num_flows i (fun _ => rfl) hn hi⟩
  · exact ⟨wrapped_ports_differ port i j hij (by omega), (h1.2 i j hij hj).1,
      (h1.2 i j hij hj).2.2, (h2.2 i j hij hj).2.2, (h3.2 i j hij hj).2.2,
      (h4.2 i j hij hj).2.2⟩

theorem install_ports_distinct_witness :
    3 < UINT16_MOD ∧
      (Bbr.InstallBulkSend 60 65535 3).length = 3 ∧
      portOf (Bbr.InstallBulkSend 60 65535 3) 0 = some 65535 ∧
      portOf (Reno.InstallOnOff 100000000 100 0 0 65535 3) 2 = some 1 ∧
      portOf (Bbr.InstallBulkSend 60 65535 3) 0 ≠ portOf (Bbr.InstallBulkSend 60 65535 3) 2 :=
  ⟨by decide,
    (install_ports_distinct 60 100 100000000 0 0 65535 3 (by decide)).2.1.1,
    ((install_ports_distinct 60 100 100000000 0 0 65535 3 (by decide)).2.2.1 0
      (by decide)).1,
    ((install_ports_distinct 60 100 100000000 0 0 65535 3 (by decide)).2.2.1 2
      (by decide)).2.2.2,
    ((install_ports_distinct 60 100 100000000 0 0 65535 3 (by decide)).2.2.2 0 2
      (by decide) (by decide)).2.2.1⟩

theorem underscore_split (a b r1 r2 : String) (ha : '_' ∉ a.data) (hb : '_' ∉ b.data)
    (h : a ++ ("_" ++ r1) = b ++ ("_" ++ r2)) : a = b ∧ r1 = r2 := by
  have hd := congrArg String.data h
  simp only [String.data_append] at hd
  obtain ⟨e1, e2⟩ := list_split_at_sep '_' a.data b.data r1.data r2.data ha hb hd
  exact ⟨String.ext e1, String.ext e2⟩

theorem bbr_dir_text (c : Bbr.Config) :
    Bbr.dir c = "tcp-bbr-cubic-results/" ++ (c.qdiscSize ++ ("_" ++ (c.bottleneck_bandwidth ++
      ("_" ++ (c.delay ++ ("_" ++ (Bbr.tcpTypeIdStr c.tcpTypeId ++ "/"))))))) := by
  simp only [Bbr.dir, String.append_assoc]

theorem tcpTypeIdStr_cases (t : String) :
    Bbr.tcpTypeIdStr "ns3::TcpCubic" = "Cubic" ∧ Bbr.tcpTypeIdStr "ns3::TcpBbr" = "Bbr" ∧
      (t ≠ "ns3::TcpCubic" → t ≠ "ns3::TcpBbr" → Bbr.tcpTypeIdStr t = "") := by
  refine ⟨by decide, by decide, fun h1 h2 => ?_⟩
  simp [Bbr.tcpTypeIdStr, h1, h2]

theorem tcpTypeIdStr_inj (t1 t2 : String)
    (h1 : t1 = "ns3::TcpCubic" ∨ t1 = "ns3::TcpBbr")
    (h2 : t2 = "ns3::TcpCubic" ∨ t2 = "ns3::TcpBbr")
    (h : Bbr.tcpTypeIdStr t1 = Bbr.tcpTypeIdStr t2) : t1 = t2 := by
  rcases h1 with rfl | rfl <;> rcases h2 with rfl | rfl <;>
    first
      | rfl
      | exact absurd h (by decide)

/-- C17: the result directory of tcp-bbr-replication.cc is
`"tcp-bbr-cubic-results/" ++ q ++ "_" ++ b ++ "_" ++ d ++ "_" ++ label (t) ++ "/"` with
label `Cubic` for `ns3::TcpCubic`, `Bbr` for `ns3::TcpBbr` and the empty label for every
other `t`; for configurations whose `qdiscSize`, `bottleneck_bandwidth` and `delay` hold
no underscore and whose `tcpTypeId` is one of the two, equal directories imply equal
`(q, b, d, t)`. -/
theorem bbr_dir_injective (c1 c2 : Bbr.Config)
    (hq1 : '_' ∉ c1.qdiscSize.data) (hq2 : '_' ∉ c2.qdiscSize.data)
    (hb1 : '_' ∉ c1.bottleneck_bandwidth.data) (hb2 : '_' ∉ c2.bottleneck_bandwidth.data)
    (hd1 : '_' ∉ c1.delay.data) (hd2 : '_' ∉ c2.delay.data)
    (ht1 : c1.tcpTypeId = "ns3::TcpCubic" ∨ c1.tcpTypeId = "ns3::TcpBbr")
    (ht2 : c2.tcpTypeId = "ns3::TcpCubic" ∨ c2.tcpTypeId = "ns3::TcpBbr") :
    Bbr.dir c1 = "tcp-bbr-cubic-results/" ++ c1.qdiscSize ++ "_" ++ c1.bottleneck_bandwidth
        ++ "_" ++ c1.delay ++ "_" ++ Bbr.tcpTypeIdStr c1.tcpTypeId ++ "/" ∧
      Bbr.tcpTypeIdStr "ns3::TcpCubic" = "Cubic" ∧ Bbr.tcpTypeIdStr "ns3::TcpBbr" = "Bbr" ∧
      (∀ t : String, t ≠ "ns3::TcpCubic" → t ≠ "ns3::TcpBbr" → Bbr.tcpTypeIdStr t = "") ∧
      (Bbr.dir c1 = Bbr.dir c2 →
        c1.qdiscSize = c2.qdiscSize ∧ c1.bottleneck_bandwidth = c2.bottleneck_bandwidth ∧
        c1.delay = c2.delay ∧ c1.tcpTypeId = c2.tcpTypeId) := by
  refine ⟨rfl, (tcpTypeIdStr_cases "").1, (tcpTypeIdStr_cases "").2.1,
    fun t => (tcpTypeIdStr_cases t).2.2, fun h => ?_⟩
  rw [bbr_dir_text, bbr_dir_text] at h
  have h1 := string_append_cancel_left _ _ _ h
  obtain ⟨eq, h2⟩ := underscore_split _ _ _ _ hq1 hq2 h1
  obtain ⟨eb, h3⟩ := underscore_split _ _ _ _ hb1 hb2 h2
  obtain ⟨ed, h4⟩ := underscore_split _ _ _ _ hd1 hd2 h3
  have h5 := string_append_cancel_right _ _ _ h4
  exact ⟨eq, eb, ed, tcpTypeIdStr_inj _ _ ht1 ht2 h5⟩

theorem bbr_dir_injective_witness :
    '_' ∉ ({} : Bbr.Config).qdiscSize.data ∧
      ({ tcpTypeId := "ns3::TcpBbr" } : Bbr.Config).tcpTypeId = "ns3::TcpBbr" ∧
      Bbr.dir { tcpTypeId := "ns3::TcpBbr" }
        = "tcp-bbr-cubic-results/0.1MB_1.25Mbps_4.8ms_Bbr/" ∧
      Bbr.dir {} ≠ Bbr.dir { tcpTypeId := "ns3::TcpBbr" } :=
  ⟨by decide, rfl, by decide,
    fun h => absurd
      ((bbr_dir_injective {} { tcpTypeId := "ns3::TcpBbr" } (by decide) (by decide)
        (by decide) (by decide) (by decide) (by decide) (Or.inl rfl) (Or.inr rfl)).2.2.2.2
        h).2.2.2 (by decide)⟩

theorem reno_traceRequests_paths (nodeId cwndWindow port i : Nat) :
    (Reno.traceRequests nodeId cwndWindow port i).map (fun r => r.2.path)
      = [ "/NodeList/" ++ toString nodeId ++ "/$ns3::TcpL4Protocol/SocketList/"
            ++ toString cwndWindow ++ "/CongestionWindow",
          "/NodeList/" ++ toString nodeId ++ "/$ns3::TcpL4Protocol/SocketList/"
            ++ toString cwndWindow ++ "/SlowStartThreshold" ] := rfl

/-- C18: in tcp-reno-custom.cc, for every flow index `i < num_flows` the loop body of
`InstallBulkSend` and of `InstallOnOff` starts the source at `1 + i / 10` s and schedules
the cwnd and the ssthresh hookup 1 ms after that, at `1 + i / 10 + 1 / 1000` s; the
paths they connect to are built from `nodeId` and `cwndWindow` alone, the same for every
`i`; the port bound into the callbacks is `(port + i) mod 2^16`. -/
theorem reno_trace_hookups (stopTime onOffStop : ℚ) (dataRate nodeId cwndWindow : Nat)
    (port num_flows i : Nat) (hn : num_flows < UINT16_MOD) (hi : i < num_flows) :
    (∃ f g : FlowSetup,
        (Reno.InstallBulkSend stopTime nodeId cwndWindow port num_flows).get? i = some f ∧
        (Reno.InstallOnOff dataRate onOffStop nodeId cwndWindow port num_flows).get? i
          = some g ∧
        f.app.start = 1 + (i : ℚ) / 10 ∧ g.app.start = 1 + (i : ℚ) / 10 ∧
        f.traces.map (fun r => r.1) = [f.app.start + 1 / 1000, f.app.start + 1 / 1000] ∧
        g.traces.map (fun r => r.1) = [g.app.start + 1 / 1000, g.app.start + 1 / 1000] ∧
        f.traces = g.traces ∧
        f.traces
          = [ (1 + (i : ℚ) / 10 + 1 / 1000,
                .TraceCwnd nodeId cwndWindow ((port + i) % UINT16_MOD)),
              (1 + (i : ℚ) / 10 + 1 / 1000,
                .TraceSsthresh nodeId cwndWindow ((port + i) % UINT16_MOD)) ] ∧
        f.traces.map (fun r => r.2.port)
          = [(port + i) % UINT16_MOD, (port + i) % UINT16_MOD]) ∧
      ∀ k : Nat,
        (Reno.traceRequests nodeId cwndWindow port k).map (fun r => r.2.path)
          = (Reno.traceRequests nodeId cwndWindow port i).map (fun r => r.2.path) ∧
        (Reno.traceRequests nodeId cwndWindow port k).map (fun r => r.2.path)
          = [ "/NodeList/" ++ toString nodeId ++ "/$ns3::TcpL4Protocol/SocketList/"
                ++ toString cwndWindow ++ "/CongestionWindow",
              "/NodeList/" ++ toString nodeId ++ "/$ns3::TcpL4Protocol/SocketList/"
                ++ toString cwndWindow ++ "/SlowStartThreshold" ] := by
  refine ⟨⟨Reno.bulkSendFlow stopTime nodeId cwndWindow port i,
      Reno.onOffFlow dataRate onOffStop nodeId cwndWindow port i,
      flowLoop_get _ num_flows i hn hi, flowLoop_get _ num_flows i hn hi,
      ?_, ?_, ?_, ?_, rfl, ?_, ?_⟩, fun k => ⟨?_, ?_⟩⟩
  · simp [Reno.bulkSendFlow, div_eq_mul_inv]
  · simp [Reno.onOffFlow, div_eq_mul_inv]
  · simp [Reno.bulkSendFlow, Reno.traceRequests]
  · simp [Reno.onOffFlow, Reno.traceRequests]
  · simp [Reno.bulkSendFlow, Reno.traceRequests, div_eq_mul_inv]
  · simp [Reno.bulkSendFlow, Reno.traceRequests, TraceCall.port]
  · rw [reno_traceRequests_paths, reno_traceRequests_paths]
  · exact reno_traceRequests_paths nodeId cwndWindow port k

theorem reno_trace_hookups_witness :
    1 < UINT16_MOD ∧ 0 < 1 ∧
      (∃ f : FlowSetup,
        (Reno.InstallBulkSend 60 0 0 50000 1).get? 0 = some f ∧
        f.traces
          = [ (1 + ((0 : Nat) : ℚ) / 10 + 1 / 1000,
                .TraceCwnd 0 0 ((50000 + 0) % UINT16_MOD)),
              (1 + ((0 : Nat) : ℚ) / 10 + 1 / 1000,
                .TraceSsthresh 0 0 ((50000 + 0) % UINT16_MOD)) ]) ∧
      (Reno.traceRequests 0 0 50000 3).map (fun r => r.2.path)
        = (Reno.traceRequests 0 0 50000 0).map (fun r => r.2.path) := by
  obtain ⟨⟨f, g, hf, _, _, _, _, _, _, htr, _⟩, hk⟩ :=
    reno_trace_hookups 60 100 100000000 0 0 50000 1 0 (by decide) (by decide)
  exact ⟨by decide, by decide, ⟨f, hf, htr⟩, (hk 3).1⟩

theorem totalSize_nonneg (items : List QueueDiscItem) : 0 ≤ totalSize items := by
  induction items with
  | nil => simp [totalSize]
  | cons p ps ih =>
    simp only [totalSize, List.map_cons, List.sum_cons] at ih ⊢
    have : (0 : Int) ≤ (p.size : Int) := Int.natCast_nonneg _
    omega

theorem totalSize_append (xs ys : List QueueDiscItem) :
    totalSize (xs ++ ys) = totalSize xs + totalSize ys := by
  simp [totalSize]

theorem queueDisc_empty_bounded (C : Nat) : (QueueDisc.empty C).Bounded := by
  simp [QueueDisc.Bounded, QueueDisc.empty, totalSize]

theorem queueDisc_step_capacity (q : QueueDisc) (op : QueueOp) :
    (q.step op).capacity = q.capacity := by
  cases op with
  | enqueue packet =>
    simp only [QueueDisc.step, QueueDisc.enqueue]
    split <;> rfl
  | dequeue =>
    simp only [QueueDisc.step, QueueDisc.dequeue]
    split <;> rfl

theorem queueDisc_step_bounded (q : QueueDisc) (op : QueueOp) (h : q.Bounded) :
    (q.step op).Bounded := by
  obtain ⟨hsum, h0, hcap⟩ := h
  cases op with
  | enqueue packet =>
    simp only [QueueDisc.step, QueueDisc.enqueue]
    split
    · exact ⟨hsum, h0, hcap⟩
    · rename_i hfit
      have hp : (0 : Int) ≤ (packet.size : Int) := Int.natCast_nonneg _
      refine ⟨?_, ?_, ?_⟩
      · simp only [totalSize_append, hsum]
        simp [totalSize]
      · simp only
        omega
      · simp only
        omega
  | dequeue =>
    simp only [QueueDisc.step, QueueDisc.dequeue]
    split
    · exact ⟨hsum, h0, hcap⟩
    · rename_i packet rest hitems
      have hp : (0 : Int) ≤ (packet.size : Int) := Int.natCast_nonneg _
      have hrest := totalSize_nonneg rest
      have hsum2 : q.current_occupancy = (packet.size : Int) + totalSize rest := by
        rw [hsum, hitems]
        simp [totalSize]
      refine ⟨?_, ?_, ?_⟩
      · simp only
        omega
      · simp only
        omega
      · simp only
        omega

theorem queueDisc_run_bounded (ops : List QueueOp) :
    ∀ q : QueueDisc, q.Bounded → (q.run ops).Bounded ∧ (q.run ops).capacity = q.capacity := by
  induction ops with
  | nil => intro q h; exact ⟨h, rfl⟩
  | cons op ops ih =>
    intro q h
    have := ih (q.step op) (queueDisc_step_bounded q op h)
    simp only [QueueDisc.run, List.foldl_cons] at this ⊢
    exact ⟨this.1, this.2.trans (queueDisc_step_capacity q op)⟩

/-- C12: for every capacity `C` and every sequence of enqueue and dequeue operations
applied to a queue discipline that starts empty, the occupancy is never negative and
never exceeds `C`, so the queue size `CheckQueueSize` records in that state is the
occupancy and is at most `C`. -/
theorem queueDisc_occupancy_bounded (C : Nat) (ops : List QueueOp) (now : ℚ) :
    0 ≤ ((QueueDisc.empty C).run ops).current_occupancy ∧
      ((QueueDisc.empty C).run ops).current_occupancy ≤ (C : Int) ∧
      ((QueueDisc.empty C).run ops).current_occupancy
        = totalSize ((QueueDisc.empty C).run ops).items ∧
      (C < UINT32_MOD →
        (((QueueDisc.empty C).run ops).currentSize : Int)
          = ((QueueDisc.empty C).run ops).current_occupancy ∧
        ((QueueDisc.empty C).run ops).currentSize ≤ C ∧
        (CheckQueueSize now ((QueueDisc.empty C).run ops).currentSize).line
          = [.dbl now, .str " ", .uint ((QueueDisc.empty C).run ops).currentSize, .endl]) := by
  obtain ⟨⟨hsum, h0, hcap⟩, hC⟩ :=
    queueDisc_run_bounded ops (QueueDisc.empty C) (queueDisc_empty_bounded C)
  have hC2 : ((QueueDisc.empty C).run ops).capacity = C := hC
  rw [hC2] at hcap
  refine ⟨h0, hcap, hsum, fun hlt => ?_⟩
  have hsz : (((QueueDisc.empty C).run ops).currentSize : Int)
      = ((QueueDisc.empty C).run ops).current_occupancy := by
    unfold QueueDisc.currentSize UINT32_MOD at *
    omega
  refine ⟨hsz, ?_, rfl⟩
  omega

theorem queueDisc_occupancy_bounded_witness :
    3000 < UINT32_MOD ∧
      ((QueueDisc.empty 3000).run
          [.enqueue ⟨1, 1500⟩, .enqueue ⟨1, 1500⟩, .enqueue ⟨1, 1500⟩, .dequeue]).current_occupancy
        = 1500 ∧
      ((QueueDisc.empty 3000).run
          [.enqueue ⟨1, 1500⟩, .enqueue ⟨1, 1500⟩, .enqueue ⟨1, 1500⟩, .dequeue]).currentSize
        ≤ 3000 :=
  ⟨by decide, by decide,
    ((queueDisc_occupancy_bounded 3000
      [.enqueue ⟨1, 1500⟩, .enqueue ⟨1, 1500⟩, .enqueue ⟨1, 1500⟩, .dequeue] 0).2.2.2
      (by decide)).2.1⟩

theorem before_irrefl {α : Type} (a : Event α) : ¬ a.before a := by
  unfold Event.before
  rintro (h | ⟨_, h⟩)
  · exact lt_irrefl _ h
  · exact Nat.lt_irrefl _ h

theorem before_trans {α : Type} {a b c : Event α} (hab : a.before b) (hbc : b.before c) :
    a.before c := by
  unfold Event.before at *
  rcases hab with h1 | ⟨h1, s1⟩ <;> rcases hbc with h2 | ⟨h2, s2⟩
  · exact Or.inl (lt_trans h1 h2)
  · exact Or.inl (h2 ▸ h1)
  · exact Or.inl (h1 ▸ h2)
  · exact Or.inr ⟨h1.trans h2, Nat.lt_trans s1 s2⟩

theorem before_asymm {α : Type} {a b : Event α} (hab : a.before b) : ¬ b.before a :=
  fun hba => before_irrefl a (before_trans hab hba)

theorem before_of_not_before {α : Type} {a b : Event α} (h : ¬ b.before a)
    (hseq : b.sequence_id ≠ a.sequence_id) : a.before b := by
  unfold Event.before at *
  rcases lt_trichotomy a.fire_time b.fire_time with hlt | heq | hgt
  · exact Or.inl hlt
  · refine Or.inr ⟨heq, ?_⟩
    rcases Nat.lt_trichotomy a.sequence_id b.sequence_id with h1 | h1 | h1
    · exact h1
    · exact absurd h1.symm hseq
    · exact absurd (Or.inr ⟨heq.symm, h1⟩) h
  · exact absurd (Or.inl hgt) h

theorem before_of_before_of_not_before {α : Type} {x e m : Event α} (hxe : x.before e)
    (hme : ¬ m.before e) : x.before m := by
  unfold Event.before at *
  rcases lt_trichotomy e.fire_time m.fire_time with hlt | heq | hgt
  · rcases hxe with h | ⟨h, _⟩
    · exact Or.inl (lt_trans h hlt)
    · exact Or.inl (h ▸ hlt)
  · rcases hxe with h | ⟨h, hs⟩
    · exact Or.inl (heq ▸ h)
    · refine Or.inr ⟨h.trans heq, ?_⟩
      rcases Nat.lt_or_ge m.sequence_id e.sequence_id with h1 | h1
      · exact absurd (Or.inr ⟨heq.symm, h1⟩) hme
      · omega
  · exact absurd (Or.inl hgt) hme

theorem earliest_eq_none {α : Type} (l : List (Event α)) (h : earliest l = none) : l = [] := by
  cases l with
  | nil => rfl
  | cons e es =>
    simp only [earliest] at h
    split at h
    · cases h
    · split at h <;> cases h

theorem earliest_spec {α : Type} (l : List (Event α)) :
    ∀ m, earliest l = some m → m ∈ l ∧ ∀ x ∈ l, ¬ x.before m := by
  induction l with
  | nil => intro m h; cases h
  | cons e es ih =>
    intro m h
    simp only [earliest] at h
    split at h
    · rename_i hnone
      have hes := earliest_eq_none es hnone
      cases h
      subst hes
      refine ⟨List.mem_cons_self _ _, fun x hx => ?_⟩
      simp only [List.mem_singleton] at hx
      subst hx
      exact before_irrefl _
    · rename_i m2 hsome
      obtain ⟨hm2, hmin⟩ := ih m2 hsome
      split at h
      · rename_i hbef
        cases h
        refine ⟨List.mem_cons_of_mem _ hm2, fun x hx => ?_⟩
        rcases List.mem_cons.mp hx with rfl | hx
        · exact before_asymm hbef
        · exact hmin x hx
      · rename_i hbef
        cases h
        refine ⟨List.mem_cons_self _ _, fun x hx => ?_⟩
        rcases List.mem_cons.mp hx with rfl | hx
        · exact before_irrefl _
        · exact fun hxe => hmin x hx (before_of_before_of_not_before hxe hbef)

theorem scheduleAll_spec {α : Type} (rs : List (ℚ × α)) :
    ∀ q : EventQueue α, (∀ r ∈ rs, 0 ≤ r.1) → q.Fresh →
      (q.scheduleAll rs).Fresh ∧
        ∀ x ∈ (q.scheduleAll rs).pending,
          x ∈ q.pending ∨ (q.now ≤ x.fire_time ∧ q.nextSeq ≤ x.sequence_id) := by
  induction rs with
  | nil => intro q _ hq; exact ⟨hq, fun x hx => Or.inl hx⟩
  | cons r rs ih =>
    intro q hrs hq
    have hfresh : (q.schedule r.1 r.2).Fresh := by
      intro x hx
      simp only [EventQueue.schedule, List.mem_append, List.mem_singleton] at hx ⊢
      rcases hx with hx | rfl
      · exact Nat.lt_succ_of_lt (hq x hx)
      · exact Nat.lt_succ_self _
    obtain ⟨h1, h2⟩ := ih (q.schedule r.1 r.2)
      (fun r2 hr2 => hrs r2 (List.mem_cons_of_mem _ hr2)) hfresh
    refine ⟨h1, fun x hx => ?_⟩
    have hr0 : 0 ≤ r.1 := hrs r (List.mem_cons_self _ _)
    rcases h2 x hx with hx2 | ⟨ht, hs⟩
    · simp only [EventQueue.schedule, List.mem_append, List.mem_singleton] at hx2
      rcases hx2 with hx2 | rfl
      · exact Or.inl hx2
      · exact Or.inr ⟨by simp only; linarith, Nat.le_refl _⟩
    · simp only [EventQueue.schedule] at ht hs
      exact Or.inr ⟨ht, by omega⟩

theorem after_firing {α : Type} (handler : α → List (ℚ × α)) (hh : NonnegDelays handler)
    (q : EventQueue α) (hq : q.Fresh) (e : Event α) (he : earliest q.pending = some e) :
    (EventQueue.scheduleAll
        { now := e.fire_time
          nextSeq := q.nextSeq
          pending := q.pending.filter fun x => x.sequence_id ≠ e.sequence_id }
        (handler e.callback)).Fresh ∧
      ∀ x ∈ (EventQueue.scheduleAll
          { now := e.fire_time
            nextSeq := q.nextSeq
            pending := q.pending.filter fun x => x.sequence_id ≠ e.sequence_id }
          (handler e.callback)).pending, e.before x := by
  obtain ⟨hmem, hmin⟩ := earliest_spec q.pending e he
  have hq1 : EventQueue.Fresh
      { now := e.fire_time
        nextSeq := q.nextSeq
        pending := q.pending.filter fun x => x.sequence_id ≠ e.sequence_id } := by
    intro x hx
    exact hq x (List.mem_filter.mp hx).1
  obtain ⟨h1, h2⟩ := scheduleAll_spec (handler e.callback) _ (hh e.callback) hq1
  refine ⟨h1, fun x hx => ?_⟩
  rcases h2 x hx with hx2 | ⟨ht, hs⟩
  · obtain ⟨hxp, hne⟩ := List.mem_filter.mp hx2
    exact before_of_not_before (hmin x hxp) (by simpa using hne)
  · have hes := hq e hmem
    simp only at ht hs
    rcases lt_or_eq_of_le ht with hlt | heq
    · exact Or.inl hlt
    · exact Or.inr ⟨heq, by omega⟩

theorem run_until_after {α : Type} (handler : α → List (ℚ × α)) (hh : NonnegDelays handler)
    (deadline : ℚ) (k : Event α) :
    ∀ (fuel : Nat) (q : EventQueue α), q.Fresh → (∀ x ∈ q.pending, k.before x) →
      ∀ y ∈ run_until handler deadline fuel q, k.before y := by
  intro fuel
  induction fuel with
  | zero => intro q _ _ y hy; simp [run_until] at hy
  | succ fuel ih =>
    intro q hq hk y hy
    simp only [run_until] at hy
    split at hy
    · simp at hy
    · rename_i e he
      split at hy
      · obtain ⟨hf, hb⟩ := after_firing handler hh q hq e he
        have hke := hk e (earliest_spec q.pending e he).1
        rcases List.mem_cons.mp hy with rfl | hy
        · exact hke
        · exact ih _ hf (fun x hx => before_trans hke (hb x hx)) y hy
      · simp at hy

theorem run_until_pairwise {α : Type} (handler : α → List (ℚ × α))
    (hh : NonnegDelays handler) (deadline : ℚ) :
    ∀ (fuel : Nat) (q : EventQueue α), q.Fresh →
      List.Pairwise Event.before (run_until handler deadline fuel q) := by
  intro fuel
  induction fuel with
  | zero => intro q _; simp [run_until]
  | succ fuel ih =>
    intro q hq
    simp only [run_until]
    split
    · exact List.Pairwise.nil
    · rename_i e he
      split
      · obtain ⟨hf, hb⟩ := after_firing handler hh q hq e he
        exact List.Pairwise.cons (run_until_after handler hh deadline e fuel _ hf hb)
          (ih _ hf)
      · exact List.Pairwise.nil

theorem run_until_le_deadline {α : Type} (handler : α → List (ℚ × α)) (deadline : ℚ) :
    ∀ (fuel : Nat) (q : EventQueue α),
      ∀ y ∈ run_until handler deadline fuel q, y.fire_time ≤ deadline := by
  intro fuel
  induction fuel with
  | zero => intro q y hy; simp [run_until] at hy
  | succ fuel ih =>
    intro q y hy
    simp only [run_until] at hy
    split at hy
    · simp at hy
    · split at hy
      · rename_i hle
        rcases List.mem_cons.mp hy with rfl | hy
        · exact hle
        · exact ih _ y hy
      · simp at hy

theorem run_until_fire {α : Type} (handler : α → List (ℚ × α)) (deadline : ℚ) (fuel : Nat)
    (q : EventQueue α) (e : Event α) (he : earliest q.pending = some e)
    (hle : e.fire_time ≤ deadline) :
    run_until handler deadline (fuel + 1) q
      = e :: run_until handler deadline fuel (q.afterFiring handler e) := by
  simp only [run_until, he, hle, if_true, EventQueue.afterFiring]

theorem run_until_late {α : Type} (handler : α → List (ℚ × α)) (deadline : ℚ) (fuel : Nat)
    (q : EventQueue α) (e : Event α) (he : earliest q.pending = some e)
    (hle : ¬ e.fire_time ≤ deadline) :
    run_until handler deadline (fuel + 1) q = [] := by
  simp only [run_until, he, hle, if_false]

theorem run_until_idle {α : Type} (handler : α → List (ℚ × α)) (deadline : ℚ) (fuel : Nat)
    (q : EventQueue α) (he : earliest q.pending = none) :
    run_until handler deadline (fuel + 1) q = [] := by
  simp only [run_until, he]

theorem schedule_wf {α : Type} (q : EventQueue α) (delay : ℚ) (action : α)
    (hq : q.Fresh) (hd : q.Distinct) :
    (q.schedule delay action).Fresh ∧ (q.schedule delay action).Distinct ∧
      ∀ x ∈ q.pending, x ∈ (q.schedule delay action).pending := by
  refine ⟨fun x hx => ?_, ?_, fun x hx => ?_⟩
  · simp only [EventQueue.schedule, List.mem_append, List.mem_singleton] at hx ⊢
    rcases hx with hx | rfl
    · exact Nat.lt_succ_of_lt (hq x hx)
    · exact Nat.lt_succ_self _
  · unfold EventQueue.Distinct at *
    simp only [EventQueue.schedule]
    refine List.pairwise_append.mpr ⟨hd, List.pairwise_singleton _ _, fun x hx y hy => ?_⟩
    simp only [List.mem_singleton] at hy
    subst hy
    exact Nat.ne_of_lt (hq x hx)
  · simp only [EventQueue.schedule, List.mem_append]
    exact Or.inl hx

theorem scheduleAll_wf {α : Type} (rs : List (ℚ × α)) :
    ∀ q : EventQueue α, q.Fresh → q.Distinct →
      (q.scheduleAll rs).Fresh ∧ (q.scheduleAll rs).Distinct ∧
        ∀ x ∈ q.pending, x ∈ (q.scheduleAll rs).pending := by
  induction rs with
  | nil => intro q hq hd; exact ⟨hq, hd, fun x hx => hx⟩
  | cons r rs ih =>
    intro q hq hd
    obtain ⟨h1, h2, h3⟩ := schedule_wf q r.1 r.2 hq hd
    obtain ⟨k1, k2, k3⟩ := ih (q.schedule r.1 r.2) h1 h2
    exact ⟨k1, k2, fun x hx => k3 x (h3 x hx)⟩

theorem distinct_seq_ne {α : Type} (q : EventQueue α) (hd : q.Distinct) {a e : Event α}
    (ha : a ∈ q.pending) (he : e ∈ q.pending) (hne : a ≠ e) :
    a.sequence_id ≠ e.sequence_id :=
  List.Pairwise.forall (fun _ _ h => Ne.symm h) hd ha he hne

theorem afterFiring_wf {α : Type} (handler : α → List (ℚ × α)) (q : EventQueue α)
    (hq : q.Fresh) (hd : q.Distinct) (e : Event α) :
    (q.afterFiring handler e).Fresh ∧ (q.afterFiring handler e).Distinct ∧
      ∀ x ∈ q.pending, x.sequence_id ≠ e.sequence_id →
        x ∈ (q.afterFiring handler e).pending := by
  have hq1 : EventQueue.Fresh
      { now := e.fire_time
        nextSeq := q.nextSeq
        pending := q.pending.filter fun x => x.sequence_id ≠ e.sequence_id } := by
    intro x hx
    exact hq x (List.mem_filter.mp hx).1
  have hd1 : EventQueue.Distinct
      { now := e.fire_time
        nextSeq := q.nextSeq
        pending := q.pending.filter fun x => x.sequence_id ≠ e.sequence_id } :=
    List.Pairwise.filter _ hd
  obtain ⟨k1, k2, k3⟩ := scheduleAll_wf (handler e.callback) _ hq1 hd1
  refine ⟨k1, k2, fun x hx hne => k3 x ?_⟩
  exact List.mem_filter.mpr ⟨hx, by simpa using hne⟩

theorem run_until_fires_before {α : Type} (handler : α → List (ℚ × α)) (deadline : ℚ) :
    ∀ (fuel : Nat) (q : EventQueue α), q.Fresh → q.Distinct →
      ∀ a ∈ q.pending, ∀ (b : Event α) (j : Nat), a.before b →
        (run_until handler deadline fuel q).get? j = some b →
        ∃ i, i < j ∧ (run_until handler deadline fuel q).get? i = some a := by
  intro fuel
  induction fuel with
  | zero => intro q _ _ a _ b j _ hj; simp [run_until] at hj
  | succ fuel ih =>
    intro q hq hd a ha b j hab hj
    cases he : earliest q.pending with
    | none =>
      rw [run_until_idle handler deadline fuel q he] at hj
      simp at hj
    | some e =>
      by_cases hle : e.fire_time ≤ deadline
      · rw [run_until_fire handler deadline fuel q e he hle] at hj ⊢
        obtain ⟨hmem, hmin⟩ := earliest_spec q.pending e he
        cases j with
        | zero =>
          simp only [List.get?_cons_zero, Option.some.injEq] at hj
          subst hj
          exact absurd hab (hmin a ha)
        | succ j =>
          simp only [List.get?_cons_succ] at hj
          by_cases hae : a = e
          · subst hae
            exact ⟨0, Nat.succ_pos _, rfl⟩
          · obtain ⟨k1, k2, k3⟩ := afterFiring_wf handler q hq hd e
            have ha2 := k3 a ha (distinct_seq_ne q hd ha hmem hae)
            obtain ⟨i, hi, hia⟩ := ih _ k1 k2 a ha2 b j hab hj
            exact ⟨i + 1, Nat.succ_lt_succ hi, by simpa using hia⟩
      · rw [run_until_late handler deadline fuel q e he hle] at hj
        simp at hj

theorem run_until_drains {α : Type} (handler : α → List (ℚ × α)) (deadline : ℚ) :
    ∀ (fuel : Nat) (q : EventQueue α), q.Fresh → q.Distinct →
      (run_until handler deadline fuel q).length < fuel →
      ∀ x ∈ q.pending, x.fire_time ≤ deadline → x ∈ run_until handler deadline fuel q := by
  intro fuel
  induction fuel with
  | zero => intro q _ _ hlen; exact absurd hlen (Nat.not_lt_zero _)
  | succ fuel ih =>
    intro q hq hd hlen x hx hxd
    cases he : earliest q.pending with
    | none =>
      rw [earliest_eq_none q.pending he] at hx
      simp at hx
    | some e =>
      obtain ⟨hmem, hmin⟩ := earliest_spec q.pending e he
      by_cases hle : e.fire_time ≤ deadline
      · rw [run_until_fire handler deadline fuel q e he hle] at hlen ⊢
        by_cases hxe : x = e
        · subst hxe
          exact List.mem_cons_self _ _
        · obtain ⟨k1, k2, k3⟩ := afterFiring_wf handler q hq hd e
          have hx2 := k3 x hx (distinct_seq_ne q hd hx hmem hxe)
          have hlen2 : (run_until handler deadline fuel (q.afterFiring handler e)).length
              < fuel := by
            simp only [List.length_cons] at hlen
            omega
          exact List.mem_cons_of_mem _ (ih _ k1 k2 hlen2 x hx2 hxd)
      · have hnb := hmin x hx
        unfold Event.before at hnb
        have : e.fire_time ≤ x.fire_time := by
          by_contra hc
          exact hnb (Or.inl (lt_of_not_le hc))
        exact absurd (le_trans this hxd) hle

theorem run_until_length_le {α : Type} (handler : α → List (ℚ × α))
    (hnone : ∀ a, handler a = []) (deadline : ℚ) :
    ∀ (fuel : Nat) (q : EventQueue α),
      (run_until handler deadline fuel q).length ≤ q.pending.length := by
  intro fuel
  induction fuel with
  | zero => intro q; simp [run_until]
  | succ fuel ih =>
    intro q
    cases he : earliest q.pending with
    | none => rw [run_until_idle handler deadline fuel q he]; simp
    | some e =>
      by_cases hle : e.fire_time ≤ deadline
      · rw [run_until_fire handler deadline fuel q e he hle]
        have hmem := (earliest_spec q.pending e he).1
        have hlt : (q.pending.filter fun x => decide (x.sequence_id ≠ e.sequence_id)).length
            < q.pending.length :=
          List.length_filter_lt_length_iff_exists.mpr ⟨e, hmem, by simp⟩
        have hrest := ih (q.afterFiring handler e)
        have hp : (q.afterFiring handler e).pending
            = q.pending.filter fun x => decide (x.sequence_id ≠ e.sequence_id) := by
          simp [EventQueue.afterFiring, hnone, EventQueue.scheduleAll]
        rw [hp] at hrest
        simp only [List.length_cons]
        omega
      · rw [run_until_late handler deadline fuel q e he hle]; simp

theorem pairwise_get {α : Type} {R : α → α → Prop} {l : List α} (h : List.Pairwise R l)
    {i j : Nat} {a b : α} (hi : l.get? i = some a) (hj : l.get? j = some b) (hij : i < j) :
    R a b := by
  rw [List.get?_eq_getElem?] at hi hj
  obtain ⟨hil, hia⟩ := List.getElem?_eq_some_iff.mp hi
  obtain ⟨hjl, hjb⟩ := List.getElem?_eq_some_iff.mp hj
  have := (List.pairwise_iff_getElem.mp h) i j hil hjl hij
  rwa [hia, hjb] at this

theorem fifo_of_pairwise {α : Type} {l : List (Event α)} (h : List.Pairwise Event.before l)
    {i j : Nat} {a b : Event α} (hi : l.get? i = some a) (hj : l.get? j = some b)
    (ht : a.fire_time = b.fire_time) (hs : a.sequence_id < b.sequence_id) : i < j := by
  rcases Nat.lt_trichotomy i j with hlt | heq | hgt
  · exact hlt
  · subst heq
    rw [hi] at hj
    cases hj
    exact absurd hs (Nat.lt_irrefl _)
  · have hba := pairwise_get h hj hi hgt
    have hab : a.before b := Or.inr ⟨ht, hs⟩
    exact absurd hab (before_asymm hba)

theorem traceRequests_scheduled (q : EventQueue TraceCall) (nodeId cwndWindow port i : Nat) :
    (q.scheduleAll (Reno.traceRequests nodeId cwndWindow port i)).pending
      = q.pending ++
        [ ⟨q.now + (1 + (i : ℚ) * (1 / 10) + 1 / 1000), q.nextSeq,
            .TraceCwnd nodeId cwndWindow ((port + i) % UINT16_MOD)⟩,
          ⟨q.now + (1 + (i : ℚ) * (1 / 10) + 1 / 1000), q.nextSeq + 1,
            .TraceSsthresh nodeId cwndWindow ((port + i) % UINT16_MOD)⟩ ] := by
  simp [EventQueue.scheduleAll, EventQueue.schedule, Reno.traceRequests]

theorem traceRequests_fresh (q : EventQueue TraceCall) (hq : q.Fresh)
    (nodeId cwndWindow port i : Nat) :
    (q.scheduleAll (Reno.traceRequests nodeId cwndWindow port i)).Fresh := by
  refine (scheduleAll_spec _ q (fun r hr => ?_) hq).1
  have hi : (0 : ℚ) ≤ (i : ℚ) := Nat.cast_nonneg i
  simp only [Reno.traceRequests, List.mem_cons, List.mem_singleton, List.not_mem_nil,
    or_false] at hr
  rcases hr with rfl | rfl <;> simp only <;> linarith

theorem hookups_both_fire (traceHandler : TraceCall → List (ℚ × TraceCall)) (deadline : ℚ)
    (fuel : Nat) (q0 : EventQueue TraceCall) (hq0 : q0.Fresh) (hd0 : q0.Distinct)
    (nodeId cwndWindow port k : Nat)
    (hdue : q0.now + (1 + (k : ℚ) * (1 / 10) + 1 / 1000) ≤ deadline)
    (hlen : (run_until traceHandler deadline fuel
        (q0.scheduleAll (Reno.traceRequests nodeId cwndWindow port k))).length < fuel) :
    ∃ i j : Nat, i < j ∧
      (run_until traceHandler deadline fuel
          (q0.scheduleAll (Reno.traceRequests nodeId cwndWindow port k))).get? i
        = some ⟨q0.now + (1 + (k : ℚ) * (1 / 10) + 1 / 1000), q0.nextSeq,
            .TraceCwnd nodeId cwndWindow ((port + k) % UINT16_MOD)⟩ ∧
      (run_until traceHandler deadline fuel
          (q0.scheduleAll (Reno.traceRequests nodeId cwndWindow port k))).get? j
        = some ⟨q0.now + (1 + (k : ℚ) * (1 / 10) + 1 / 1000), q0.nextSeq + 1,
            .TraceSsthresh nodeId cwndWindow ((port + k) % UINT16_MOD)⟩ := by
  have hf := traceRequests_fresh q0 hq0 nodeId cwndWindow port k
  have hd := (scheduleAll_wf (Reno.traceRequests nodeId cwndWindow port k) q0 hq0 hd0).2.1
  have hp := traceRequests_scheduled q0 nodeId cwndWindow port k
  have hcw : (⟨q0.now + (1 + (k : ℚ) * (1 / 10) + 1 / 1000), q0.nextSeq,
      .TraceCwnd nodeId cwndWindow ((port + k) % UINT16_MOD)⟩ : Event TraceCall)
      ∈ (q0.scheduleAll (Reno.traceRequests nodeId cwndWindow port k)).pending := by
    rw [hp]; simp
  have hss : (⟨q0.now + (1 + (k : ℚ) * (1 / 10) + 1 / 1000), q0.nextSeq + 1,
      .TraceSsthresh nodeId cwndWindow ((port + k) % UINT16_MOD)⟩ : Event TraceCall)
      ∈ (q0.scheduleAll (Reno.traceRequests nodeId cwndWindow port k)).pending := by
    rw [hp]; simp
  have hfired := run_until_drains traceHandler deadline fuel _ hf hd hlen _ hss hdue
  obtain ⟨j, hj⟩ := List.mem_iff_get?.mp hfired
  have hab : Event.before
      (⟨q0.now + (1 + (k : ℚ) * (1 / 10) + 1 / 1000), q0.nextSeq,
        .TraceCwnd nodeId cwndWindow ((port + k) % UINT16_MOD)⟩ : Event TraceCall)
      ⟨q0.now + (1 + (k : ℚ) * (1 / 10) + 1 / 1000), q0.nextSeq + 1,
        .TraceSsthresh nodeId cwndWindow ((port + k) % UINT16_MOD)⟩ :=
    Or.inr ⟨rfl, Nat.lt_succ_self _⟩
  obtain ⟨i, hij, hi⟩ :=
    run_until_fires_before traceHandler deadline fuel _ hf hd _ hcw _ j hab hj
  exact ⟨i, j, hij, hi, hj⟩

theorem reno_scheduledTraces_one (stopTime : ℚ) (nodeId cwndWindow port : Nat) :
    Reno.scheduledTraces stopTime nodeId cwndWindow port 1
      = Reno.traceRequests nodeId cwndWindow port 0 := by
  rw [Reno.scheduledTraces, Reno.InstallBulkSend, flowLoop_full _ 1 (by decide)]
  simp [List.range_succ, Reno.bulkSendFlow]

theorem reno_hookups_fired :
    run_until hookupRequests 60 5 (Reno.hookupQueue 60 0)
      = [ ⟨1001 / 1000, 0, .TraceCwnd 0 0 50000⟩,
          ⟨1001 / 1000, 1, .TraceSsthresh 0 0 50000⟩ ] := by
  have hq : Reno.hookupQueue 60 0
      = { now := 0, nextSeq := 2,
          pending := [ ⟨1001 / 1000, 0, .TraceCwnd 0 0 50000⟩,
                       ⟨1001 / 1000, 1, .TraceSsthresh 0 0 50000⟩ ] } := by
    rw [Reno.hookupQueue, reno_scheduledTraces_one]
    simp [EventQueue.scheduleAll, EventQueue.schedule, EventQueue.empty, Reno.traceRequests,
      UINT16_MOD]
    norm_num
  rw [hq]
  simp [run_until, earliest, Event.before, hookupRequests, EventQueue.scheduleAll]
  norm_num

end Ns3Experiments
